import Mathlib

set_option maxRecDepth 100000

/-!
Verification of the context-extraction and token-budgeting subsystem.

Shallow embedding of the Python sources of the `static_analysis` repository:

* `src/models/context.py`    — data model (`FunctionInfo`, `TypeDefinition`,
  `MacroDefinition`, `RuleInfo`, `AnalysisContext`)
* `src/context/token_optimizer.py` — `TokenOptimizer`
* `src/analyzer/function_extractor.py` — `FunctionExtractor`
* `src/analyzer/caller_tracker.py` — `CallerTracker`
* `src/analyzer/symbol_resolver.py` — `SymbolResolver`
* `src/context/context_builder.py` — `ContextBuilder.build_phase2_context`

Modelling conventions:
* Python `int` is `Int`; `int(x)` on a float truncates toward zero, which is
  `Int.tdiv` here.  The float products `available * 0.6`, `remaining * 0.5`,
  `remaining * 0.3`, `remaining * 0.2` are modelled as the exact rationals
  `n*6/10`, `n*5/10`, `n*3/10`, `n*2/10` truncated toward zero; for every
  concrete input appearing in a theorem below the IEEE-754 double result was
  checked to coincide with the exact rational result.
* Python `len` of a `str` counts code points, as does `String.length`.
* Python list slices `l[a:b]` are `pySlice` below (full Python semantics,
  including negative indices).
* Exceptions are modelled by `Option`/`Except`: an operation that the Python
  code wraps in `try/except` returns `none`/`.error` where the Python code
  would raise, and the handler's behaviour is reproduced at the call site.
* The libclang AST is modelled by the `Cursor` tree; the AST provider
  (`ClangAnalyzer.get_translation_unit[_full]`) is an external collaborator
  and is passed in as a function `parse : String → Option Cursor`
  (`none` = parse raised).  File contents (`open(...).readlines()`) are a
  function `files : String → Option (List String)` whose lines carry their
  trailing newline, exactly as `readlines` returns them.
* `os.path.normpath` is modelled as the identity; no property proved here
  depends on the chosen normal form of a path.
-/

namespace StaticAnalysis

/-- Helper for `py_split_newline`: accumulates the current line (reversed). -/
def py_split_newline_acc : List Char → List Char → List String
  | [], acc => [String.mk acc.reverse]
  | c :: cs, acc =>
    if c = '\n' then String.mk acc.reverse :: py_split_newline_acc cs []
    else py_split_newline_acc cs (c :: acc)

/-- Python `s.split("\n")` (the only split the embedded code performs).
Agrees with `String.splitOn "\n"`; defined by structural recursion over the
characters so that concrete instances evaluate inside the kernel. -/
def py_split_newline (s : String) : List String :=
  py_split_newline_acc s.data []

/-- Python list slice `l[a:b]` with full Python index semantics:
negative indices count from the end, and both bounds are clamped. -/
def pySlice {α : Type} (l : List α) (a b : Int) : List α :=
  let n : Int := l.length
  let a' : Int := if a < 0 then max 0 (n + a) else min a n
  let b' : Int := if b < 0 then max 0 (n + b) else min b n
  (l.drop a'.toNat).take (b' - a').toNat

/-- Embeds `os.path.normpath`, modelled as the identity (see header). -/
def normpath (s : String) : String := s

/-! ## Data model (`src/models/context.py`) -/

/-- Embeds `FunctionInfo` from `src/models/context.py`. -/
structure FunctionInfo where
  name : String
  file_path : String
  start_line : Int
  end_line : Int
  code : String
  signature : Option String := none
  return_type : Option String := none
  parameters : List String := []
deriving DecidableEq, Repr

/-- Embeds `TypeDefinition` from `src/models/context.py`. -/
structure TypeDefinition where
  name : String
  kind : String
  code : String
  file_path : String
  line : Int
deriving DecidableEq, Repr

/-- Embeds `MacroDefinition` from `src/models/context.py`. -/
structure MacroDefinition where
  name : String
  definition : String
  file_path : String
  line : Int
  is_function_like : Bool := false
deriving DecidableEq, Repr

/-- Embeds `RuleInfo` from `src/models/context.py`. -/
structure RuleInfo where
  rule_id : String
  title : String
  category : String
  rationale : String
  false_positive_hints : List String := []
deriving DecidableEq, Repr

/-- Embeds `RuleInfo.to_prompt_text`. -/
def RuleInfo.to_prompt_text (r : RuleInfo) : String :=
  let hints_text : String :=
    if r.false_positive_hints ≠ [] then
      "\n**誤検知の可能性があるケース**:\n" ++
        String.intercalate "\n" (r.false_positive_hints.map (fun hint => "- " ++ hint))
    else ""
  "**ルールID**: " ++ r.rule_id ++
  "\n**タイトル**: " ++ r.title ++
  "\n**カテゴリ**: " ++ r.category ++
  "\n**根拠**: " ++ r.rationale ++ hints_text

/-- Embeds `AnalysisContext` from `src/models/context.py`. -/
structure AnalysisContext where
  target_function : FunctionInfo
  finding_line : Int
  rule_info : Option RuleInfo := none
  caller_functions : List FunctionInfo := []
  related_types : List TypeDefinition := []
  related_macros : List MacroDefinition := []
deriving DecidableEq, Repr

/-- Embeds `AnalysisContext.estimate_tokens`: total characters of target code, caller
code, type code, macro definitions and rule text, divided by 3. -/
def AnalysisContext.estimate_tokens (c : AnalysisContext) : Int :=
  let total_chars : Int :=
    (c.target_function.code.length : Int)
    + (c.caller_functions.map (fun f => (f.code.length : Int))).sum
    + (c.related_types.map (fun t => (t.code.length : Int))).sum
    + (c.related_macros.map (fun m => (m.definition.length : Int))).sum
    + (match c.rule_info with
       | some r => (r.to_prompt_text.length : Int)
       | none => 0)
  Int.tdiv total_chars 3

/-! ## Token optimizer (`src/context/token_optimizer.py`) -/

namespace TokenOptimizer

def DEFAULT_MAX_TOKENS : Int := 250000

def BASE_TOKENS : Int := 2000

def CHARS_PER_TOKEN : Int := 3

/-- Embeds `TokenOptimizer._estimate_tokens`: `len(text) // CHARS_PER_TOKEN`. -/
def estimate_tokens_str (text : String) : Int :=
  Int.tdiv (text.length : Int) CHARS_PER_TOKEN

/-- The greedy loop shared by `_truncate_function` and `_truncate_caller`:
append whole lines in order while `current_chars + len(line) + 1` stays
within `max_chars`, and stop at the first line that does not fit. -/
def greedy_take_lines (max_chars : Int) : List String → Int → List String
  | [], _ => []
  | l :: ls, current_chars =>
    if current_chars + (l.length : Int) + 1 > max_chars then []
    else l :: greedy_take_lines max_chars ls (current_chars + (l.length : Int) + 1)

/-- Embeds `TokenOptimizer._truncate_function`.  Windows the split lines to
`[max(0, rel-50), min(len, rel+50))` around the focus offset, greedily takes
whole lines under the character budget, then inserts omission markers
(which are themselves not counted against the budget).  Note that in the
source `actual_end` is computed after the start marker has been inserted, so
it counts that marker; this is reproduced faithfully. -/
def truncate_function (func : FunctionInfo) (focus_line : Int) (max_tokens : Int) :
    FunctionInfo :=
  let lines := py_split_newline func.code
  let max_chars := max_tokens * CHARS_PER_TOKEN
  let relative_line := focus_line - func.start_line
  let center_start : Int := max 0 (relative_line - 50)
  let center_end : Int := min (lines.length : Int) (relative_line + 50)
  let result_lines := greedy_take_lines max_chars (pySlice lines center_start center_end) 0
  let result_lines :=
    if center_start > 0 then
      ("// ... (省略: 行 " ++ toString func.start_line ++ " - " ++
        toString (func.start_line + center_start - 1) ++ ")") :: result_lines
    else result_lines
  let actual_end : Int := center_start + (result_lines.length : Int)
  let result_lines :=
    if actual_end < (lines.length : Int) then
      result_lines ++ ["// ... (省略: 行 " ++ toString (func.start_line + actual_end) ++
        " - " ++ toString func.end_line ++ ")"]
    else result_lines
  { func with
    start_line := func.start_line + center_start,
    end_line := func.start_line + actual_end,
    code := String.intercalate "\n" result_lines }

/-- Embeds `TokenOptimizer._truncate_caller`: head truncation to the first 30 lines
under the character budget, plus an omission marker when lines were dropped;
`None` when fewer than 50 tokens remain. -/
def truncate_caller (func : FunctionInfo) (max_tokens : Int) : Option FunctionInfo :=
  if max_tokens < 50 then none
  else
    let lines := py_split_newline func.code
    let max_chars := max_tokens * CHARS_PER_TOKEN
    let result_lines := greedy_take_lines max_chars (pySlice lines 0 30) 0
    let result_lines :=
      if result_lines.length < lines.length then result_lines ++ ["// ... (以下省略)"]
      else result_lines
    some { name := func.name
           file_path := func.file_path
           start_line := func.start_line
           end_line := func.start_line + (result_lines.length : Int)
           code := String.intercalate "\n" result_lines
           signature := func.signature }

/-- Loop body of `TokenOptimizer._optimize_functions`: keep each caller whole
while it fits; at the first caller that does not fit, substitute a truncated
version when more than 100 tokens remain, and stop. -/
def optimize_functions_go (budget : Int) : List FunctionInfo → Int → List FunctionInfo
  | [], _ => []
  | func :: rest, used_tokens =>
    let tokens := estimate_tokens_str func.code
    if used_tokens + tokens ≤ budget then
      func :: optimize_functions_go budget rest (used_tokens + tokens)
    else
      let remaining := budget - used_tokens
      if remaining > 100 then
        match truncate_caller func remaining with
        | some truncated => [truncated]
        | none => []
      else []

/-- Embeds `TokenOptimizer._optimize_functions`. -/
def optimize_functions (functions : List FunctionInfo) (budget : Int) : List FunctionInfo :=
  optimize_functions_go budget functions 0

/-- Loop body of `TokenOptimizer._optimize_items`.  Note the source computes
`self._estimate_tokens(str(key(item)))`, i.e. the token estimate of the
*decimal string of the item's size*, not of the item's text; this is
reproduced faithfully. -/
def optimize_items_go {α : Type} (budget : Int) (key : α → Int) :
    List α → Int → List α
  | [], _ => []
  | item :: rest, used_tokens =>
    let tokens := estimate_tokens_str (toString (key item))
    if used_tokens + tokens ≤ budget then
      item :: optimize_items_go budget key rest (used_tokens + tokens)
    else optimize_items_go budget key rest used_tokens

/-- Embeds `TokenOptimizer._optimize_items`: stable sort ascending by `key`, then the
greedy inclusion loop.  Python's stable `sorted(items, key=key)` is modelled
by `List.insertionSort`, which is also stable, and stable sorts agree. -/
def optimize_items {α : Type} [DecidableEq α] (items : List α) (budget : Int)
    (key : α → Int) : List α :=
  optimize_items_go budget key
    (List.insertionSort (fun a b => key a ≤ key b) items) 0

/-- Embeds `TokenOptimizer.optimize_context` for a configured `max_tokens`.
The initial 60/25/10/5 split of lines 44-47 of the source is recomputed at
lines 64-67 before any collection is optimized, so only the recomputed
50/30/20 split of the remainder is observable; the dead initial values of
`caller_budget`/`type_budget`/`macro_budget` are omitted. -/
def optimize_context (max_tokens : Int) (context : AnalysisContext) : AnalysisContext :=
  let available_tokens := max_tokens - BASE_TOKENS
  let target_budget := Int.tdiv (available_tokens * 6) 10
  let target_tokens := estimate_tokens_str context.target_function.code
  let target_function :=
    if target_tokens > target_budget then
      truncate_function context.target_function context.finding_line target_budget
    else context.target_function
  let target_tokens := estimate_tokens_str target_function.code
  let remaining := available_tokens - target_tokens
  let caller_budget := Int.tdiv (remaining * 5) 10
  let type_budget := Int.tdiv (remaining * 3) 10
  let macro_budget := Int.tdiv (remaining * 2) 10
  let caller_functions :=
    if context.caller_functions.isEmpty then context.caller_functions
    else optimize_functions context.caller_functions caller_budget
  let related_types :=
    if context.related_types.isEmpty then context.related_types
    else optimize_items context.related_types type_budget (fun t => (t.code.length : Int))
  let related_macros :=
    if context.related_macros.isEmpty then context.related_macros
    else optimize_items context.related_macros macro_budget
      (fun m => (m.definition.length : Int))
  { context with
    target_function := target_function
    caller_functions := caller_functions
    related_types := related_types
    related_macros := related_macros }

/-- Embeds `TokenOptimizer.will_fit`. -/
def will_fit (max_tokens : Int) (context : AnalysisContext) : Bool :=
  decide (context.estimate_tokens + BASE_TOKENS ≤ max_tokens)

end TokenOptimizer

/-! ## The libclang cursor tree (AST provider interface)

Only the cursor attributes the embedded code reads are modelled:
`kind`, `spelling`, `displayname`, `location.file` / `location.line`,
`extent.start.line` / `extent.end.line`, `is_definition()`, `type.spelling`
(read on parameter children), `result_type.spelling`, `get_tokens()` and
`get_children()`. -/

/-- Cursor kinds referenced anywhere in the embedded sources. -/
inductive CKind where
  | FUNCTION_DECL
  | CXX_METHOD
  | CONSTRUCTOR
  | DESTRUCTOR
  | FUNCTION_TEMPLATE
  | LAMBDA_EXPR
  | CALL_EXPR
  | PARM_DECL
  | CLASS_DECL
  | STRUCT_DECL
  | ENUM_DECL
  | TYPEDEF_DECL
  | TYPE_ALIAS_DECL
  | CLASS_TEMPLATE
  | MACRO_DEFINITION
  | INCLUSION_DIRECTIVE
  | TRANSLATION_UNIT
  | OTHER
deriving DecidableEq, Repr

/-- A node of the AST provider's cursor tree. -/
inductive Cursor where
  | mk (kind : CKind) (spelling : String) (display_name : String)
      (file : Option String) (ext_start : Int) (ext_end : Int)
      (is_definition : Bool) (loc_line : Int) (type_spelling : String)
      (result_type : Option String) (tokens : List String)
      (children : List Cursor)
deriving Repr

def Cursor.kind : Cursor → CKind
  | .mk k _ _ _ _ _ _ _ _ _ _ _ => k

def Cursor.spelling : Cursor → String
  | .mk _ s _ _ _ _ _ _ _ _ _ _ => s

def Cursor.display_name : Cursor → String
  | .mk _ _ d _ _ _ _ _ _ _ _ _ => d

def Cursor.file : Cursor → Option String
  | .mk _ _ _ f _ _ _ _ _ _ _ _ => f

def Cursor.ext_start : Cursor → Int
  | .mk _ _ _ _ a _ _ _ _ _ _ _ => a

def Cursor.ext_end : Cursor → Int
  | .mk _ _ _ _ _ b _ _ _ _ _ _ => b

def Cursor.is_definition : Cursor → Bool
  | .mk _ _ _ _ _ _ d _ _ _ _ _ => d

def Cursor.loc_line : Cursor → Int
  | .mk _ _ _ _ _ _ _ l _ _ _ _ => l

def Cursor.type_spelling : Cursor → String
  | .mk _ _ _ _ _ _ _ _ t _ _ _ => t

def Cursor.result_type : Cursor → Option String
  | .mk _ _ _ _ _ _ _ _ _ r _ _ => r

def Cursor.tokens : Cursor → List String
  | .mk _ _ _ _ _ _ _ _ _ _ ts _ => ts

def Cursor.children : Cursor → List Cursor
  | .mk _ _ _ _ _ _ _ _ _ _ _ cs => cs

/-- The node-pruning test used by every traversal in the sources: a node is
skipped when its location resolves to a file other than the one being
analysed (`os.path.normpath(node_file) != os.path.normpath(file_path)`). -/
def prune_other_file (file : Option String) (file_path : String) : Bool :=
  match file with
  | some f => decide (normpath f ≠ normpath file_path)
  | none => false

/-! ## Function extractor (`src/analyzer/function_extractor.py`) -/

namespace FunctionExtractor

/-- The local `function_kinds` set built inside
`FunctionExtractor._find_enclosing_function` (lambdas are handled by a
separate branch there, so the set does not contain `LAMBDA_EXPR`). -/
def function_kinds : List CKind :=
  [.FUNCTION_DECL, .CXX_METHOD, .CONSTRUCTOR, .DESTRUCTOR, .FUNCTION_TEMPLATE]

/-- Embeds `FunctionExtractor._read_source_range`: reads `lines[start-1:end]` joined,
or `""` when the file cannot be read (the `except` branch). -/
def read_source_range (files : String → Option (List String)) (file_path : String)
    (start_line end_line : Int) : String :=
  match files file_path with
  | none => ""
  | some lines => String.join (pySlice lines (start_line - 1) end_line)

mutual

/-- The `traverse` closure of `FunctionExtractor._find_enclosing_function`.
`rec` is the *self*-call `self._find_enclosing_function(node, …)` that the
source performs on a matching function node; it is a parameter here so the
outer fuelled recursion can tie the knot.  Return value: `none` models a
raised exception (in particular Python's `RecursionError`); `some r` is
normal completion with the nonlocal `result` set to `r`. -/
def fef_traverse (rec : Cursor → Option (Option Cursor)) (file_path : String)
    (target_line : Int) : Cursor → Option (Option Cursor)
  | node@(.mk kind _ _ file ext_start ext_end is_definition _ _ _ _ children) =>
    if prune_other_file file file_path then some none
    else if kind ∈ function_kinds ∧ ext_start ≤ target_line ∧ target_line ≤ ext_end ∧
        is_definition = true then
      match rec node with
      | none => none
      | some inner => some (some (inner.getD node))
    else if kind = CKind.LAMBDA_EXPR ∧ ext_start ≤ target_line ∧ target_line ≤ ext_end then
      some (some node)
    else fef_traverse_children rec file_path target_line children

/-- The `for child in node.get_children(): traverse(child); if result: return`
loop of `_find_enclosing_function`. -/
def fef_traverse_children (rec : Cursor → Option (Option Cursor)) (file_path : String)
    (target_line : Int) : List Cursor → Option (Option Cursor)
  | [] => some none
  | c :: cs =>
    match fef_traverse rec file_path target_line c with
    | none => none
    | some (some r) => some (some r)
    | some none => fef_traverse_children rec file_path target_line cs

end

/-- Embeds `FunctionExtractor._find_enclosing_function`.  The Python method has no
termination argument of its own: on a function-definition node whose extent
contains the target line, `traverse` immediately calls
`_find_enclosing_function` again *on the same node*; the call stack grows
until Python raises `RecursionError`.  The `fuel` parameter makes that
explicit: `none` models the raised `RecursionError` (fuel exhausted), and a
Python run corresponds to a large finite fuel (the interpreter's recursion
limit). -/
def find_enclosing_function : Nat → Cursor → String → Int → Option (Option Cursor)
  | 0, _, _, _ => none
  | fuel + 1, cursor, file_path, target_line =>
    fef_traverse (fun node => find_enclosing_function fuel node file_path target_line)
      file_path target_line cursor

/-- Embeds `FunctionExtractor._cursor_to_function_info`. -/
def cursor_to_function_info (files : String → Option (List String)) (cursor : Cursor)
    (file_path : String) : FunctionInfo :=
  let code := read_source_range files file_path cursor.ext_start cursor.ext_end
  let parameters := cursor.children.filterMap (fun child =>
    if child.kind = CKind.PARM_DECL then
      some (if child.spelling ≠ "" then child.type_spelling ++ " " ++ child.spelling
            else child.type_spelling)
    else none)
  { name := if cursor.spelling ≠ "" then cursor.spelling else "<lambda>"
    file_path := file_path
    start_line := cursor.ext_start
    end_line := cursor.ext_end
    code := code
    signature := some cursor.display_name
    return_type := cursor.result_type
    parameters := parameters }

/-- Embeds `FunctionExtractor.extract_function_at_line`.  The whole body is wrapped
in `try/except Exception: return None`, so a parse failure or a
`RecursionError` out of `_find_enclosing_function` both yield `none`. -/
def extract_function_at_line (parse : String → Option Cursor)
    (files : String → Option (List String)) (fuel : Nat) (file_path : String)
    (line : Int) : Option FunctionInfo :=
  match parse file_path with
  | none => none
  | some root =>
    match find_enclosing_function fuel root file_path line with
    | none => none
    | some none => none
    | some (some c) => some (cursor_to_function_info files c file_path)

/-- Embeds `FunctionExtractor.extract_function_with_context`: the function at the
line when found, otherwise a window of `context_lines` raw lines around the
line as a pseudo-unit named `"<context>"`. -/
def extract_function_with_context (parse : String → Option Cursor)
    (files : String → Option (List String)) (fuel : Nat) (file_path : String)
    (line : Int) (context_lines : Int) : Option FunctionInfo × String :=
  match extract_function_at_line parse files fuel file_path line with
  | some func_info => (some func_info, func_info.code)
  | none =>
    match files file_path with
    | none => (none, "")
    | some lines =>
      let start : Int := max 0 (line - context_lines - 1)
      let stop : Int := min (lines.length : Int) (line + context_lines)
      let context_code := String.join (pySlice lines start stop)
      let pseudo_func : FunctionInfo :=
        { name := "<context>"
          file_path := file_path
          start_line := start + 1
          end_line := stop
          code := context_code }
      (some pseudo_func, context_code)

end FunctionExtractor

/-! ## Caller tracker (`src/analyzer/caller_tracker.py`) -/

namespace CallerTracker

/-- The local `function_kinds` set of `CallerTracker._search_calls_in_tu`. -/
def function_kinds : List CKind :=
  [.FUNCTION_DECL, .CXX_METHOD, .CONSTRUCTOR, .DESTRUCTOR]

/-- Embeds `CallerTracker._extract_function_info`: builds a `FunctionInfo` from a
cursor, reading the caller's own source lines; `none` when reading the file
raises (the `except` branch). -/
def extract_function_info (files : String → Option (List String)) (cursor : Cursor)
    (file_path : String) : Option FunctionInfo :=
  match files file_path with
  | none => none
  | some lines =>
    some { name := cursor.spelling
           file_path := file_path
           start_line := cursor.ext_start
           end_line := cursor.ext_end
           code := String.join (pySlice lines (cursor.ext_start - 1) cursor.ext_end)
           signature := some cursor.display_name }

/-- The `if node.kind == CursorKind.CALL_EXPR` block of the `traverse`
closure in `CallerTracker._search_calls_in_tu`: at a call expression whose
spelled callee equals the target and with an enclosing function set, record
the enclosing function once per `"file:function"` key. -/
def ct_record_call (files : String → Option (List String))
    (target_name file_path : String) (kind : CKind) (spelling : String)
    (enclosing_func : Option Cursor) (st : List FunctionInfo × List String) :
    List FunctionInfo × List String :=
  if kind = CKind.CALL_EXPR ∧ spelling = target_name then
    match enclosing_func with
    | some ef =>
      let func_key := file_path ++ ":" ++ ef.spelling
      if func_key ∈ st.2 then st
      else
        match extract_function_info files ef file_path with
        | some func_info => (st.1 ++ [func_info], st.2 ++ [func_key])
        | none => (st.1, st.2 ++ [func_key])
    | none => st
  else st

mutual

/-- The `traverse` closure of `CallerTracker._search_calls_in_tu`.  The state
is the pair (callers list, visited key list); the `visited` set is modelled
as a list in insertion order (only membership is ever queried). -/
def ct_traverse (files : String → Option (List String))
    (target_name file_path : String) (max_callers : Int) :
    Cursor → Option Cursor → List FunctionInfo × List String →
      List FunctionInfo × List String
  | node@(.mk kind spelling _ file _ _ is_definition _ _ _ _ children),
      enclosing_func, st =>
    if (st.1.length : Int) ≥ max_callers then st
    else if prune_other_file file file_path then st
    else
      let enclosing_func :=
        if kind ∈ function_kinds ∧ is_definition = true then some node
        else enclosing_func
      let st := ct_record_call files target_name file_path kind spelling
        enclosing_func st
      ct_traverse_children files target_name file_path max_callers children
        enclosing_func st

/-- The `for child in node.get_children(): traverse(child, enclosing_func)`
loop of `_search_calls_in_tu`. -/
def ct_traverse_children (files : String → Option (List String))
    (target_name file_path : String) (max_callers : Int) :
    List Cursor → Option Cursor → List FunctionInfo × List String →
      List FunctionInfo × List String
  | [], _, st => st
  | c :: cs, enclosing_func, st =>
    ct_traverse_children files target_name file_path max_callers cs enclosing_func
      (ct_traverse files target_name file_path max_callers c enclosing_func st)

end

/-- Embeds `CallerTracker._search_calls_in_tu` (`traverse(cursor, None)`). -/
def search_calls_in_tu (files : String → Option (List String)) (root : Cursor)
    (target_name file_path : String) (max_callers : Int)
    (st : List FunctionInfo × List String) : List FunctionInfo × List String :=
  ct_traverse files target_name file_path max_callers root none st

/-- The `for src_file in self.source_files` loop of
`CallerTracker._find_callers_recursive`: per-file parse failures are caught
and skipped, and the loop breaks once the caller cap is reached. -/
def fc_file_loop (parse : String → Option Cursor)
    (files : String → Option (List String)) (function_name : String)
    (max_callers : Int) :
    List String → List FunctionInfo × List String → List FunctionInfo × List String
  | [], st => st
  | src_file :: rest, st =>
    if (st.1.length : Int) ≥ max_callers then st
    else
      match parse src_file with
      | none => fc_file_loop parse files function_name max_callers rest st
      | some tu_root =>
        fc_file_loop parse files function_name max_callers rest
          (search_calls_in_tu files tu_root function_name src_file max_callers st)

/-- Embeds `CallerTracker._find_callers_recursive`.  Despite its name the Python
method never calls itself; `file_path` (the file defining the target
function) is received but never read in the body. -/
def find_callers_recursive (parse : String → Option Cursor)
    (files : String → Option (List String)) (source_files : List String)
    (function_name file_path : String) (current_depth max_depth max_callers : Int)
    (st : List FunctionInfo × List String) : List FunctionInfo × List String :=
  if current_depth ≥ max_depth ∨ (st.1.length : Int) ≥ max_callers then st
  else fc_file_loop parse files function_name max_callers source_files st

/-- Embeds `CallerTracker.find_callers`: runs the recursive search from depth 0 with
empty state and returns `callers[:max_callers]`. -/
def find_callers (parse : String → Option Cursor)
    (files : String → Option (List String)) (source_files : List String)
    (function_name file_path : String) (max_depth max_callers : Int) :
    List FunctionInfo :=
  let st := find_callers_recursive parse files source_files function_name file_path
    0 max_depth max_callers ([], [])
  pySlice st.1 0 max_callers

/-- The `for caller in callers` loop of the `build_chain` closure in
`CallerTracker.find_call_chain`.  `recur` is `build_chain` one level deeper;
the add-before-recurse / remove-after discipline on `visited` and the
append/pop on `current_chain` become the functional arguments
`visited ++ [caller_key]` and `current_chain ++ [caller]`, which are local
to the recursive call exactly as the mutate/undo pair is in Python. -/
def chain_loop
    (recur : String → List String → List FunctionInfo → List (List FunctionInfo) →
      List (List FunctionInfo)) :
    List FunctionInfo → List String → List FunctionInfo → List (List FunctionInfo) →
      List (List FunctionInfo)
  | [], _, _, chains => chains
  | caller :: rest, visited, current_chain, chains =>
    let caller_key := caller.file_path ++ ":" ++ caller.name
    if caller_key ∈ visited then chain_loop recur rest visited current_chain chains
    else
      chain_loop recur rest visited current_chain
        (recur caller.name (visited ++ [caller_key]) (current_chain ++ [caller]) chains)

/-- The `build_chain` closure of `CallerTracker.find_call_chain`.  `cf` is
the caller lookup `self.find_callers(func_name, file_path, 1, 5)` as a
function of `func_name` (its other arguments are fixed in the source).
Python recursion terminates because `depth` grows toward `max_depth`; the
`fuel` parameter carries `(max_depth - depth).toNat`, which every call site
maintains, so the `0` fuel branch coincides with the `depth >= max_depth`
guard and the model computes exactly what the Python does. -/
def build_chain (cf : String → List FunctionInfo) (max_depth : Int) :
    Nat → Int → String → List String → List FunctionInfo →
      List (List FunctionInfo) → List (List FunctionInfo)
  | fuel, depth, func_name, visited, current_chain, chains =>
    if depth ≥ max_depth ∨ (chains.length : Int) ≥ 10 then chains
    else
      match fuel with
      | 0 => chains
      | fuel' + 1 =>
        let callers := cf func_name
        if callers.isEmpty then
          if ¬ current_chain.isEmpty then chains ++ [current_chain] else chains
        else
          chain_loop
            (fun fn v c ch => build_chain cf max_depth fuel' (depth + 1) fn v c ch)
            callers visited current_chain chains

/-- Embeds `CallerTracker.find_call_chain`. -/
def find_call_chain (parse : String → Option Cursor)
    (files : String → Option (List String)) (source_files : List String)
    (function_name file_path : String) (max_depth : Int) :
    List (List FunctionInfo) :=
  build_chain
    (fun fn => find_callers parse files source_files fn file_path 1 5)
    max_depth max_depth.toNat 0 function_name [] [] []

end CallerTracker

/-! ## Symbol resolver (`src/analyzer/symbol_resolver.py`) -/

namespace SymbolResolver

/-- Embeds `SymbolResolver.STD_TYPES` (the built-in exclusion set for types). -/
def STD_TYPES : List String :=
  ["String", "Vector", "Map", "Set", "List", "Array",
   "int8_t", "int16_t", "int32_t", "int64_t",
   "uint8_t", "uint16_t", "uint32_t", "uint64_t",
   "size_t", "ptrdiff_t", "nullptr_t", "bool", "char",
   "short", "int", "long", "float", "double", "void",
   "string", "vector", "map", "set", "list", "array"]

/-- Embeds `SymbolResolver.COMMON_MACROS` (the built-in exclusion set for macros). -/
def COMMON_MACROS : List String :=
  ["TRUE", "FALSE", "NULL", "EOF", "EXIT_SUCCESS", "EXIT_FAILURE",
   "UINT8_MAX", "UINT16_MAX", "UINT32_MAX", "UINT64_MAX",
   "INT8_MIN", "INT16_MIN", "INT32_MIN", "INT64_MIN",
   "INT8_MAX", "INT16_MAX", "INT32_MAX", "INT64_MAX",
   "SIZE_MAX", "PTRDIFF_MAX", "PTRDIFF_MIN"]

/-- A regex word character (`\w` over the ASCII inputs concerned):
the `\b` boundaries in the source patterns separate maximal runs of these. -/
def is_word_char (c : Char) : Bool := c.isAlpha || c.isDigit || c = '_'

/-- Splits a character list into its maximal runs of word characters
(the units between `\b` boundaries that `re.findall` scans). -/
def word_runs_acc : List Char → List Char → List (List Char)
  | [], acc => if acc.isEmpty then [] else [acc.reverse]
  | c :: cs, acc =>
    if is_word_char c then word_runs_acc cs (c :: acc)
    else if acc.isEmpty then word_runs_acc cs []
    else acc.reverse :: word_runs_acc cs []

def word_runs (l : List Char) : List (List Char) := word_runs_acc l []

/-- Whether a maximal word run is matched by the type-candidate pattern
`\b([A-Z][A-Za-z0-9_]*|[a-z][a-z0-9_]*_t)\b` of
`SymbolResolver._extract_type_names`: either it starts with an upper-case
letter, or it starts lower-case, consists only of `[a-z0-9_]`, and ends in
`_t` (both alternatives must span the whole run because of the trailing
`\b`). -/
def matches_type_pattern (w : List Char) : Bool :=
  match w with
  | [] => false
  | c :: rest =>
    c.isUpper ||
      (c.isLower && (c :: rest).all (fun x => x.isLower || x.isDigit || x = '_') &&
        decide ((c :: rest).reverse.take 2 = ['t', '_']))

/-- Embeds `SymbolResolver._extract_type_names`: pattern matches filtered against
`STD_TYPES`.  The Python function returns a set and only membership in it is
ever used; the model returns the match list (possibly with duplicates),
which has the same membership. -/
def extract_type_names (code : String) : List String :=
  let pattern_matches :=
    ((word_runs code.data).filter matches_type_pattern).map (fun w => String.mk w)
  pattern_matches.filter (fun m => decide (¬ m ∈ STD_TYPES))

/-- Whether a maximal word run is matched by the macro-candidate pattern
`\b([A-Z][A-Z0-9_]+)\b` of `SymbolResolver._extract_macro_names`: an
upper-case letter followed by at least one character, all in `[A-Z0-9_]`. -/
def matches_macro_pattern (w : List Char) : Bool :=
  match w with
  | [] => false
  | c :: rest =>
    c.isUpper && !rest.isEmpty &&
      rest.all (fun x => x.isUpper || x.isDigit || x = '_')

/-- Embeds `SymbolResolver._extract_macro_names`: pattern matches filtered against
`COMMON_MACROS` and a minimum length of 3. -/
def extract_macro_names (code : String) : List String :=
  let pattern_matches :=
    ((word_runs code.data).filter matches_macro_pattern).map (fun w => String.mk w)
  pattern_matches.filter (fun m => decide (¬ m ∈ COMMON_MACROS) && decide (m.length > 2))

/-- The `type_cursor_kinds` set of `SymbolResolver.find_types_in_function`. -/
def type_cursor_kinds : List CKind :=
  [.CLASS_DECL, .STRUCT_DECL, .ENUM_DECL, .TYPEDEF_DECL, .TYPE_ALIAS_DECL,
   .CLASS_TEMPLATE]

/-- The `kind_map` of `SymbolResolver._cursor_to_type_definition`
(`kind_map.get(cursor.kind, "unknown")`). -/
def kind_map : CKind → String
  | .CLASS_DECL => "class"
  | .STRUCT_DECL => "struct"
  | .ENUM_DECL => "enum"
  | .TYPEDEF_DECL => "typedef"
  | .TYPE_ALIAS_DECL => "using"
  | .CLASS_TEMPLATE => "template class"
  | _ => "unknown"

/-- Embeds `SymbolResolver._cursor_to_type_definition`: `None` when the cursor has
no file, or when reading the definition's own file raises. -/
def cursor_to_type_definition (files : String → Option (List String))
    (cursor : Cursor) : Option TypeDefinition :=
  match cursor.file with
  | none => none
  | some file_path =>
    match files file_path with
    | none => none
    | some lines =>
      some { name := cursor.spelling
             kind := kind_map cursor.kind
             code := String.join (pySlice lines (cursor.ext_start - 1) cursor.ext_end)
             file_path := file_path
             line := cursor.loc_line }

/-- The candidate check-and-record step of the `find_type_def` closure in
`SymbolResolver.find_types_in_function`: a cursor whose spelling is an
unfound candidate and whose kind is a type kind contributes a
`TypeDefinition` — but only when it is a definition and its text can be
extracted. -/
def ftd_record (files : String → Option (List String)) (type_candidates : List String)
    (node : Cursor) (st : List TypeDefinition × List String) :
    List TypeDefinition × List String :=
  if node.spelling ∈ type_candidates ∧ ¬ node.spelling ∈ st.2 ∧
      node.kind ∈ type_cursor_kinds then
    if node.is_definition = true then
      match cursor_to_type_definition files node with
      | some type_def => (st.1 ++ [type_def], st.2 ++ [node.spelling])
      | none => st
    else st
  else st

mutual

/-- The `find_type_def` closure of `SymbolResolver.find_types_in_function`.
State: (confirmed type definitions, found names). -/
def ftd_walk (files : String → Option (List String)) (type_candidates : List String)
    (max_types : Int) :
    Cursor → List TypeDefinition × List String → List TypeDefinition × List String
  | node@(.mk _ _ _ _ _ _ _ _ _ _ _ children), st =>
    if (st.1.length : Int) ≥ max_types then st
    else
      ftd_walk_children files type_candidates max_types children
        (ftd_record files type_candidates node st)

/-- The `for child in cursor.get_children(): find_type_def(child)` loop. -/
def ftd_walk_children (files : String → Option (List String))
    (type_candidates : List String) (max_types : Int) :
    List Cursor → List TypeDefinition × List String →
      List TypeDefinition × List String
  | [], st => st
  | c :: cs, st =>
    ftd_walk_children files type_candidates max_types cs
      (ftd_walk files type_candidates max_types c st)

end

/-- Embeds `SymbolResolver.find_types_in_function`. -/
def find_types_in_function (parse : String → Option Cursor)
    (files : String → Option (List String)) (function_code : String)
    (file_path : String) (max_types : Int) : List TypeDefinition :=
  let type_candidates := extract_type_names function_code
  if type_candidates.isEmpty then []
  else
    match parse file_path with
    | none => []
    | some root => (ftd_walk files type_candidates max_types root ([], [])).1

/-- Embeds `SymbolResolver._cursor_to_macro_definition`. -/
def cursor_to_macro_definition (cursor : Cursor) : Option MacroDefinition :=
  let tokens := cursor.tokens
  if tokens.isEmpty then none
  else
    some { name := cursor.spelling
           definition := String.intercalate " " tokens
           file_path := cursor.file.getD ""
           line := cursor.loc_line
           is_function_like :=
             decide (tokens.length > 1) && decide (tokens.get? 1 = some "(") }

/-- The `for cursor in tu.cursor.get_children()` loop of
`SymbolResolver.find_macros_in_code` (macros are only sought among the
translation unit's direct children). -/
def fm_loop (macro_candidates : List String) (max_macros : Int) :
    List Cursor → List MacroDefinition × List String → List MacroDefinition
  | [], st => st.1
  | cursor :: rest, st =>
    if (st.1.length : Int) ≥ max_macros then st.1
    else if cursor.kind = CKind.MACRO_DEFINITION ∧ cursor.spelling ∈ macro_candidates ∧
        ¬ cursor.spelling ∈ st.2 then
      match cursor_to_macro_definition cursor with
      | some macro_def =>
        fm_loop macro_candidates max_macros rest
          (st.1 ++ [macro_def], st.2 ++ [cursor.spelling])
      | none => fm_loop macro_candidates max_macros rest st
    else fm_loop macro_candidates max_macros rest st

/-- Embeds `SymbolResolver.find_macros_in_code`. -/
def find_macros_in_code (parse : String → Option Cursor)
    (files : String → Option (List String)) (code : String) (file_path : String)
    (max_macros : Int) : List MacroDefinition :=
  let macro_candidates := extract_macro_names code
  if macro_candidates.isEmpty then []
  else
    match parse file_path with
    | none => []
    | some root => fm_loop macro_candidates max_macros root.children ([], [])

end SymbolResolver

/-! ## Context builder (`src/context/context_builder.py`) -/

namespace ContextBuilder

/-- Embeds `ContextBuilder.build_phase2_context`.  The three enrichment steps are
each wrapped in their own `try/except Exception` in the source; they are
passed here as `Except`-returning operations (`.error` models a raised
exception), so the theorem about this definition quantifies over every
possible failure pattern of the collaborating components.  In the
repository the operations are `CallerTracker.find_callers`,
`SymbolResolver.find_types_in_function` and
`SymbolResolver.find_macros_in_code` applied to
`phase1_context.target_function` and `finding.location.file_path`. -/
def build_phase2_context
    (find_callers_op : String → Except Unit (List FunctionInfo))
    (find_types_op : String → Except Unit (List TypeDefinition))
    (find_macros_op : String → Except Unit (List MacroDefinition))
    (finding_file_path : String) (phase1_context : AnalysisContext) :
    AnalysisContext :=
  let context : AnalysisContext :=
    { target_function := phase1_context.target_function
      finding_line := phase1_context.finding_line
      rule_info := phase1_context.rule_info }
  let context :=
    if phase1_context.target_function.name ≠ "<context>" then
      match find_callers_op finding_file_path with
      | .ok callers => { context with caller_functions := callers }
      | .error _ => context
    else context
  let context :=
    match find_types_op finding_file_path with
    | .ok types => { context with related_types := types }
    | .error _ => context
  let context :=
    match find_macros_op finding_file_path with
    | .ok macros => { context with related_macros := macros }
    | .error _ => context
  context

end ContextBuilder

/-! ## Verification predicates -/

mutual

/-- Every extent in the cursor tree is well-formed (`start ≤ end`) — the
well-formedness the AST provider guarantees for source extents. -/
def cursor_wf : Cursor → Bool
  | .mk _ _ _ _ ext_start ext_end _ _ _ _ _ children =>
    decide (ext_start ≤ ext_end) && cursor_list_wf children

def cursor_list_wf : List Cursor → Bool
  | [] => true
  | c :: cs => cursor_wf c && cursor_list_wf cs

end

mutual

/-- Some node of the cursor tree satisfies the predicate. -/
def cursor_any (p : Cursor → Bool) : Cursor → Bool
  | node@(.mk _ _ _ _ _ _ _ _ _ _ _ children) => p node || cursor_list_any p children

def cursor_list_any (p : Cursor → Bool) : List Cursor → Bool
  | [] => false
  | c :: cs => cursor_any p c || cursor_list_any p cs

end

/-- The `"file:function"` visited-set key that `CallerTracker` builds for a
recorded caller. -/
def caller_key (fi : FunctionInfo) : String := fi.file_path ++ ":" ++ fi.name

/-- A cursor is an AST *confirmation* for the type name `n`: its kind is one
of the type kinds, it is a definition, and its spelled name is `n`. -/
def type_def_pred (n : String) (c : Cursor) : Bool :=
  decide (c.kind ∈ SymbolResolver.type_cursor_kinds) && c.is_definition &&
    decide (c.spelling = n)

/-- Two `FunctionInfo` records denote different (file, function-name)
pairs. -/
def distinct_file_function (a b : FunctionInfo) : Prop :=
  ¬ (a.file_path = b.file_path ∧ a.name = b.name)

instance : DecidableRel distinct_file_function := fun a b => by
  unfold distinct_file_function; infer_instance

/-- Invariant of the caller-search state: every recorded caller's key is in
the visited set, and the recorded callers are pairwise distinct as
(file, name) pairs. -/
def SearchInv (st : List FunctionInfo × List String) : Prop :=
  (∀ fi ∈ st.1, caller_key fi ∈ st.2) ∧ st.1.Pairwise distinct_file_function

/-! ## Concrete instances used by the theorems below -/

/-- A 300-character type definition body used to exhibit the
`_optimize_items` size-estimation slip. -/
def c1_type : TypeDefinition :=
  { name := "BigType"
    kind := "struct"
    code := String.mk (List.replicate 300 'a')
    file_path := "a.cpp"
    line := 1 }

/-- A context whose target is tiny and whose single related type is large. -/
def c1_context : AnalysisContext :=
  { target_function :=
      { name := "g", file_path := "a.cpp", start_line := 1, end_line := 1, code := "abc" }
    finding_line := 1
    related_types := [c1_type] }

/-- A three-line function with the finding on its last line. -/
def c3_func : FunctionInfo :=
  { name := "f", file_path := "a.cpp", start_line := 1, end_line := 3, code := "aa\nbb\ncc" }

/-- A 60-line target function (lines of four characters) with the finding on
line 56, so that the first truncation clips the window at both ends. -/
def c6_target : FunctionInfo :=
  { name := "h", file_path := "a.cpp", start_line := 1, end_line := 60,
    code := String.intercalate "\n" (List.replicate 60 "aaaa") }

/-- The context around `c6_target`. -/
def c6_context : AnalysisContext :=
  { target_function := c6_target, finding_line := 56 }

/-- A small context that fits its budget outright (used to witness the
amended idempotence statement). -/
def c6w_context : AnalysisContext :=
  { target_function :=
      { name := "w", file_path := "a.cpp", start_line := 1, end_line := 1, code := "abc" }
    finding_line := 1
    caller_functions :=
      [{ name := "cw", file_path := "b.cpp", start_line := 1, end_line := 1,
         code := "void cw() \x7b g(); \x7d" }] }

/-- A function-definition cursor for `void foo()` spanning lines 1–5 of
`a.cpp`. -/
def foo_cursor : Cursor :=
  .mk .FUNCTION_DECL "foo" "foo()" (some "a.cpp") 1 5 true 1 "" (some "void") [] []

/-- The translation-unit root of `a.cpp` with `foo` as its only child. -/
def foo_tu : Cursor :=
  .mk .TRANSLATION_UNIT "a.cpp" "a.cpp" none 1 5 false 1 "" none [] [foo_cursor]

/-- An AST provider that parses `a.cpp` to `foo_tu`. -/
def foo_parse : String → Option Cursor :=
  fun p => if p = "a.cpp" then some foo_tu else none

/-- The five source lines of `a.cpp`. -/
def foo_files : String → Option (List String) :=
  fun p =>
    if p = "a.cpp" then
      some ["void foo() \x7b\n", "  int x;\n", "  x = 1;\n", "  return;\n", "\x7d\n"]
    else none

/-- A call expression `Foo()` on line 2 of `s1.cpp`. -/
def call_foo1 : Cursor :=
  .mk .CALL_EXPR "Foo" "Foo()" (some "s1.cpp") 2 2 false 2 "" none [] []

/-- Cursor for `void A()` in `s1.cpp`, whose body calls `Foo`. -/
def funcA : Cursor :=
  .mk .FUNCTION_DECL "A" "A()" (some "s1.cpp") 1 3 true 1 "" (some "void") [] [call_foo1]

/-- Translation unit of `s1.cpp`. -/
def s1_tu : Cursor :=
  .mk .TRANSLATION_UNIT "s1.cpp" "s1.cpp" none 1 3 false 1 "" none [] [funcA]

/-- A call expression `Foo()` on line 2 of `s2.cpp`. -/
def call_foo2 : Cursor :=
  .mk .CALL_EXPR "Foo" "Foo()" (some "s2.cpp") 2 2 false 2 "" none [] []

/-- Cursor for `void B()` in `s2.cpp`, whose body calls `Foo`. -/
def funcB : Cursor :=
  .mk .FUNCTION_DECL "B" "B()" (some "s2.cpp") 1 3 true 1 "" (some "void") [] [call_foo2]

/-- Translation unit of `s2.cpp`. -/
def s2_tu : Cursor :=
  .mk .TRANSLATION_UNIT "s2.cpp" "s2.cpp" none 1 3 false 1 "" none [] [funcB]

/-- AST provider over the two-file caller scenario. -/
def caller_parse : String → Option Cursor :=
  fun p => if p = "s1.cpp" then some s1_tu else if p = "s2.cpp" then some s2_tu else none

/-- Source lines of the two-file caller scenario. -/
def caller_files : String → Option (List String) :=
  fun p =>
    if p = "s1.cpp" then some ["void A() \x7b\n", "  Foo();\n", "\x7d\n"]
    else if p = "s2.cpp" then some ["void B() \x7b\n", "  Foo();\n", "\x7d\n"]
    else none

/-- The caller record the tracker extracts for `A`. -/
def funcA_info : FunctionInfo :=
  { name := "A", file_path := "s1.cpp", start_line := 1, end_line := 3,
    code := "void A() \x7b\n  Foo();\n\x7d\n", signature := some "A()" }

/-- The pseudo-unit the fallback builds for line 2 of `s1.cpp` (the locator
itself diverges there — see C2 — so the window fallback is used). -/
def c7_pseudo : FunctionInfo :=
  { name := "<context>", file_path := "s1.cpp", start_line := 1, end_line := 3,
    code := "void A() \x7b\n  Foo();\n\x7d\n" }

/-- A two-line function used to exercise the truncation span lemmas. -/
def c7_func : FunctionInfo :=
  { name := "tf", file_path := "x.cpp", start_line := 1, end_line := 2, code := "ab\ncd" }

/-- An AST provider that fails on every file. -/
def empty_parse : String → Option Cursor := fun _ => none

/-- A file map holding one empty file. -/
def empty_files : String → Option (List String) :=
  fun p => if p = "empty.cpp" then some [] else none

/-- Cursor for `struct MotorSpeedLimit`, a type definition on lines 1–3 of `t.cpp`. -/
def motor_struct : Cursor :=
  .mk .STRUCT_DECL "MotorSpeedLimit" "MotorSpeedLimit" (some "t.cpp") 1 3 true 1
    "" none [] []

/-- Translation unit of `t.cpp`. -/
def t_tu : Cursor :=
  .mk .TRANSLATION_UNIT "t.cpp" "t.cpp" none 1 3 false 1 "" none [] [motor_struct]

/-- AST provider over `t.cpp`. -/
def type_parse : String → Option Cursor :=
  fun p => if p = "t.cpp" then some t_tu else none

/-- Source lines of `t.cpp`. -/
def type_files : String → Option (List String) :=
  fun p =>
    if p = "t.cpp" then some ["struct MotorSpeedLimit \x7b\n", "  int v;\n", "\x7d;\n"]
    else none

/-- A snippet mentioning both a project type and an excluded built-in. -/
def motor_code : String := "MotorSpeedLimit limit; uint32_t x;"

/-- The confirmed type definition the resolver returns for the snippet. -/
def motor_td : TypeDefinition :=
  { name := "MotorSpeedLimit", kind := "struct",
    code := "struct MotorSpeedLimit \x7b\n  int v;\n\x7d;\n", file_path := "t.cpp",
    line := 1 }

/-! ## Theorems -/

/-- Claim C1 (evidence of the code bug).  The claim — that the optimized
context's estimated size plus `BASE_TOKENS` never exceeds the configured
budget except through target-window truncation — fails on the code: with
budget 2030 and a context holding a 3-character target and one 300-character
related type, `optimize_context` keeps the type (because `_optimize_items`
estimates the item's tokens from `str(key(item))`, the decimal string of its
size, i.e. 1 token instead of 100), leaves the target untouched (so the
claim's only allowed exception does not apply), and returns a context with
`estimate_tokens() + BASE_TOKENS = 2101 > 2030`. -/
theorem claim_C1_budget_exceeded :
    TokenOptimizer.will_fit 2030 (TokenOptimizer.optimize_context 2030 c1_context) = false ∧
    (TokenOptimizer.optimize_context 2030 c1_context).estimate_tokens +
      TokenOptimizer.BASE_TOKENS > 2030 ∧
    (TokenOptimizer.optimize_context 2030 c1_context).target_function =
      c1_context.target_function ∧
    (TokenOptimizer.optimize_context 2030 c1_context).related_types = [c1_type] := by
  decide

/-- Claim C3 (evidence of the code bug).  The claim — that the focus line is
preserved verbatim whenever any budget remains — fails on the code: for the
three-line function `c3_func` whose span (1–3) contains the focus line 3,
and the positive budget of 1 token, `_truncate_function` spends the whole
character budget on the line *preceding* the focus line (the loop fills the
window top-down instead of expanding outward from the focus line), so the
focus line's content `"cc"` does not occur in the truncated unit. -/
theorem claim_C3_focus_line_dropped :
    c3_func.start_line ≤ 3 ∧ (3 : Int) ≤ c3_func.end_line ∧ (0 : Int) < 1 ∧
    ¬ "cc" ∈ py_split_newline (TokenOptimizer.truncate_function c3_func 3 1).code ∧
    (TokenOptimizer.truncate_function c3_func 3 1).code = "aa\n// ... (省略: 行 2 - 3)" := by
  decide

/-- Claim C6, counterexample.  Optimization is *not* idempotent: with budget
2010 and the 60-line context `c6_context`, the first pass truncates the
target to a window bracketed by two omission markers whose characters are
not counted against the budget, so the truncated target (19 tokens) still
exceeds the 6-token target budget; the second pass therefore truncates
again, producing a different target text and a strictly smaller estimated
size — contradicting "no further size reduction / unchanged content". -/
theorem claim_C6_counterexample :
    TokenOptimizer.optimize_context 2010 (TokenOptimizer.optimize_context 2010 c6_context) ≠
      TokenOptimizer.optimize_context 2010 c6_context ∧
    (TokenOptimizer.optimize_context 2010
        (TokenOptimizer.optimize_context 2010 c6_context)).estimate_tokens <
      (TokenOptimizer.optimize_context 2010 c6_context).estimate_tokens := by
  decide

/-- On the function node `foo_cursor`, `traverse` enters the
function-definition branch and immediately performs the self-call `rec` on
the very same node; when that self-call diverges (returns `none`), so does
the traversal. -/
theorem fef_traverse_foo_none (rec : Cursor → Option (Option Cursor))
    (hrec : rec foo_cursor = none) :
    FunctionExtractor.fef_traverse rec "a.cpp" 3 foo_cursor = none := by
  simp only [foo_cursor] at hrec ⊢
  simp [FunctionExtractor.fef_traverse, prune_other_file, normpath,
    FunctionExtractor.function_kinds, hrec]

/-- Lemma: `_find_enclosing_function` diverges on `foo_cursor` at every fuel. -/
theorem foo_enclosing_none :
    ∀ fuel : Nat,
      FunctionExtractor.find_enclosing_function fuel foo_cursor "a.cpp" 3 = none := by
  intro fuel
  induction fuel with
  | zero => rfl
  | succ n ih =>
    exact fef_traverse_foo_none
      (fun node => FunctionExtractor.find_enclosing_function n node "a.cpp" 3) ih

/-- Lemma: `_find_enclosing_function` diverges on the whole translation unit of
`a.cpp` at every fuel (the traversal reaches `foo_cursor` and loops there). -/
theorem foo_tu_enclosing_none :
    ∀ fuel : Nat,
      FunctionExtractor.find_enclosing_function fuel foo_tu "a.cpp" 3 = none := by
  intro fuel
  match fuel with
  | 0 => rfl
  | n + 1 =>
    have h := foo_enclosing_none n
    show FunctionExtractor.fef_traverse
      (fun node => FunctionExtractor.find_enclosing_function n node "a.cpp" 3)
      "a.cpp" 3 foo_tu = none
    simp only [foo_tu, foo_cursor] at h ⊢
    simp [FunctionExtractor.fef_traverse, FunctionExtractor.fef_traverse_children,
      prune_other_file, normpath, FunctionExtractor.function_kinds, h]

/-- Claim C2 (evidence of the code bug).  Whenever the target line lies inside
a function definition, `_find_enclosing_function`'s `traverse` calls
`self._find_enclosing_function(node, …)` on the *same* node, whose own
`traverse` immediately repeats the call: the recursion never terminates, so
for every finite recursion budget the locator raises (`RecursionError` in
Python, modelled by exhausted fuel / `none`), `extract_function_at_line`'s
blanket `except` turns that into `None`, and the enclosing function is
never returned.  Concretely: for line 3 inside `foo` (a function definition
spanning lines 1–5 of `a.cpp`), the result is `none` at *every* fuel, where
the claim requires the enclosing function `foo`. -/
theorem claim_C2_locator_never_returns_enclosing :
    ∀ fuel : Nat,
      FunctionExtractor.find_enclosing_function fuel foo_cursor "a.cpp" 3 = none ∧
      FunctionExtractor.extract_function_at_line foo_parse foo_files fuel "a.cpp" 3 =
        none := by
  intro fuel
  refine ⟨foo_enclosing_none fuel, ?_⟩
  simp [FunctionExtractor.extract_function_at_line, foo_parse,
    foo_tu_enclosing_none fuel]

/-- Claim C9.  `build_phase2_context` is total (it always returns a context)
and each enrichment step is independently fault-tolerant: the returned
context keeps the phase-1 target function, finding line and rule info
untouched, and each enrichment collection equals the successful lookup's
result, or is empty when that lookup raised (`.error`) — or, for callers,
when the target is the `"<context>"` line-window fallback.  Each equation
depends only on that step's own outcome, so a failure in one step leaves
the other collections unaffected. -/
theorem claim_C9_phase2_fault_isolation
    (find_callers_op : String → Except Unit (List FunctionInfo))
    (find_types_op : String → Except Unit (List TypeDefinition))
    (find_macros_op : String → Except Unit (List MacroDefinition))
    (finding_file_path : String) (phase1 : AnalysisContext) :
    (ContextBuilder.build_phase2_context find_callers_op find_types_op
        find_macros_op finding_file_path phase1).target_function =
      phase1.target_function ∧
    (ContextBuilder.build_phase2_context find_callers_op find_types_op
        find_macros_op finding_file_path phase1).finding_line =
      phase1.finding_line ∧
    (ContextBuilder.build_phase2_context find_callers_op find_types_op
        find_macros_op finding_file_path phase1).rule_info = phase1.rule_info ∧
    (ContextBuilder.build_phase2_context find_callers_op find_types_op
        find_macros_op finding_file_path phase1).caller_functions =
      (if phase1.target_function.name ≠ "<context>" then
        match find_callers_op finding_file_path with
        | .ok callers => callers
        | .error _ => []
      else []) ∧
    (ContextBuilder.build_phase2_context find_callers_op find_types_op
        find_macros_op finding_file_path phase1).related_types =
      (match find_types_op finding_file_path with
       | .ok types => types
       | .error _ => []) ∧
    (ContextBuilder.build_phase2_context find_callers_op find_types_op
        find_macros_op finding_file_path phase1).related_macros =
      (match find_macros_op finding_file_path with
       | .ok macros => macros
       | .error _ => []) := by
  unfold ContextBuilder.build_phase2_context
  rcases hco : find_callers_op finding_file_path with cs | cs <;>
    rcases hto : find_types_op finding_file_path with ts | ts <;>
    rcases hmo : find_macros_op finding_file_path with ms | ms <;>
    by_cases hname : phase1.target_function.name ≠ "<context>" <;>
    simp [hco, hto, hmo, hname]

/-- Claim C10.  `find_callers` never reads its `file_path` argument (the file
where the target function is defined): `_find_callers_recursive` receives it
but its body only scans the constructor-supplied `source_files`, so the
result is the same for any two file paths. -/
theorem claim_C10_find_callers_ignores_file_path
    (parse : String → Option Cursor) (files : String → Option (List String))
    (source_files : List String) (function_name p1 p2 : String)
    (max_depth max_callers : Int) :
    CallerTracker.find_callers parse files source_files function_name p1
        max_depth max_callers =
      CallerTracker.find_callers parse files source_files function_name p2
        max_depth max_callers := rfl

/-- The fields of a caller record produced by
`CallerTracker._extract_function_info`. -/
theorem extract_function_info_fields {files : String → Option (List String)}
    {ef : Cursor} {fp : String} {fi : FunctionInfo}
    (h : CallerTracker.extract_function_info files ef fp = some fi) :
    fi.file_path = fp ∧ fi.name = ef.spelling ∧
    fi.start_line = ef.ext_start ∧ fi.end_line = ef.ext_end := by
  unfold CallerTracker.extract_function_info at h
  cases hf : files fp with
  | none => rw [hf] at h; cases h
  | some lines =>
    rw [hf] at h
    cases h
    exact ⟨rfl, rfl, rfl, rfl⟩

/-- Lemma: `ct_record_call` preserves the search invariant. -/
theorem ct_record_call_inv (files : String → Option (List String))
    (target_name file_path : String) (kind : CKind) (spelling : String)
    (enclosing_func : Option Cursor) (st : List FunctionInfo × List String)
    (h : SearchInv st) :
    SearchInv (CallerTracker.ct_record_call files target_name file_path kind
      spelling enclosing_func st) := by
  unfold CallerTracker.ct_record_call
  split
  · cases enclosing_func with
    | none => exact h
    | some ef =>
      simp only
      split
      · exact h
      · rename_i hkey
        cases hx : CallerTracker.extract_function_info files ef file_path with
        | none =>
          refine ⟨fun fi hfi => ?_, h.2⟩
          exact List.mem_append_left _ (h.1 fi hfi)
        | some func_info =>
          obtain ⟨hfp, hnm, -, -⟩ := extract_function_info_fields hx
          constructor
          · intro fi hfi
            rcases List.mem_append.1 hfi with hfi | hfi
            · exact List.mem_append_left _ (h.1 fi hfi)
            · rcases List.mem_singleton.1 hfi with rfl
              apply List.mem_append_right
              simp [caller_key, hfp, hnm]
          · refine List.pairwise_append.2 ⟨h.2, List.pairwise_singleton _ _, ?_⟩
            intro a ha b hb
            rcases List.mem_singleton.1 hb with rfl
            intro hab
            apply hkey
            have : caller_key a = file_path ++ ":" ++ ef.spelling := by
              rw [caller_key, hab.1, hab.2, hfp, hnm]
            rw [← this]
            exact h.1 a ha
  · exact h

mutual

/-- The caller-search traversal preserves the search invariant. -/
theorem ct_traverse_inv (files : String → Option (List String))
    (target_name file_path : String) (max_callers : Int) (node : Cursor)
    (enclosing_func : Option Cursor) (st : List FunctionInfo × List String)
    (h : SearchInv st) :
    SearchInv (CallerTracker.ct_traverse files target_name file_path max_callers
      node enclosing_func st) := by
  cases node with
  | mk kind spelling dn file es ee isdef ll ts rt tks children =>
    rw [CallerTracker.ct_traverse]
    split
    · exact h
    · split
      · exact h
      · exact ct_traverse_children_inv files target_name file_path max_callers
          children _ _
          (ct_record_call_inv files target_name file_path kind spelling _ st h)

/-- The child loop of the caller-search traversal preserves the invariant. -/
theorem ct_traverse_children_inv (files : String → Option (List String))
    (target_name file_path : String) (max_callers : Int) (cs : List Cursor)
    (enclosing_func : Option Cursor) (st : List FunctionInfo × List String)
    (h : SearchInv st) :
    SearchInv (CallerTracker.ct_traverse_children files target_name file_path
      max_callers cs enclosing_func st) := by
  cases cs with
  | nil => exact h
  | cons c cs =>
    rw [CallerTracker.ct_traverse_children]
    exact ct_traverse_children_inv files target_name file_path max_callers cs
      enclosing_func _
      (ct_traverse_inv files target_name file_path max_callers c enclosing_func st h)

end

/-- The per-file loop of `_find_callers_recursive` preserves the search
invariant. -/
theorem fc_file_loop_inv (parse : String → Option Cursor)
    (files : String → Option (List String)) (function_name : String)
    (max_callers : Int) (source_files : List String)
    (st : List FunctionInfo × List String) (h : SearchInv st) :
    SearchInv (CallerTracker.fc_file_loop parse files function_name max_callers
      source_files st) := by
  induction source_files generalizing st with
  | nil => exact h
  | cons src rest ih =>
    rw [CallerTracker.fc_file_loop]
    split
    · exact h
    · cases hp : parse src with
      | none => exact ih st h
      | some tu_root =>
        exact ih _ (ct_traverse_inv files function_name src max_callers tu_root
          none st h)

/-- Lemma: `pySlice l 0 b` is a sublist of `l`. -/
theorem pySlice_zero_sublist {α : Type} (l : List α) (b : Int) :
    (pySlice l 0 b).Sublist l := by
  unfold pySlice
  exact (List.take_sublist _ _).trans (List.drop_sublist _ _)

/-- Length bound for `pySlice l 0 b` with `0 ≤ b`. -/
theorem pySlice_zero_length_le {α : Type} (l : List α) (b : Int) (hb : 0 ≤ b) :
    ((pySlice l 0 b).length : Int) ≤ b := by
  unfold pySlice
  simp only
  have h1 : ((if (0 : Int) < 0 then max 0 ((l.length : Int) + 0)
      else min 0 (l.length : Int)) : Int) = 0 := by simp
  rw [h1]
  have h2 : (if b < 0 then max 0 ((l.length : Int) + b)
      else min b (l.length : Int)) ≤ b := by
    rw [if_neg (not_lt.2 hb)]
    exact min_le_left _ _
  calc ((List.take ((if b < 0 then max 0 ((l.length : Int) + b)
        else min b (l.length : Int)) - 0).toNat (l.drop (0 : Int).toNat)).length : Int)
      ≤ (((if b < 0 then max 0 ((l.length : Int) + b)
        else min b (l.length : Int)) - 0).toNat : Int) := by
        exact_mod_cast Int.ofNat_le.2 (List.length_take_le _ _)
    _ ≤ b := by
        rw [sub_zero]
        rcases le_or_lt 0 (if b < 0 then max 0 ((l.length : Int) + b)
          else min b (l.length : Int)) with hx | hx
        · rw [Int.toNat_of_nonneg hx]; exact h2
        · rw [Int.toNat_of_nonpos hx.le]; exact hb

/-- Claim C4.  `find_callers` returns at most `max_callers` entries, and no two
entries of one invocation denote the same (file, function-name) pair: the
`"file:function"` visited-set suppresses duplicates within and across
files. -/
theorem claim_C4_find_callers_capped_and_distinct
    (parse : String → Option Cursor) (files : String → Option (List String))
    (source_files : List String) (function_name file_path : String)
    (max_depth max_callers : Int) (hmc : 0 ≤ max_callers) :
    ((CallerTracker.find_callers parse files source_files function_name file_path
        max_depth max_callers).length : Int) ≤ max_callers ∧
    (CallerTracker.find_callers parse files source_files function_name file_path
        max_depth max_callers).Pairwise distinct_file_function := by
  have hinv : SearchInv (CallerTracker.find_callers_recursive parse files
      source_files function_name file_path 0 max_depth max_callers ([], [])) := by
    unfold CallerTracker.find_callers_recursive
    split
    · exact ⟨fun fi hfi => absurd hfi (List.not_mem_nil fi), List.Pairwise.nil⟩
    · exact fc_file_loop_inv parse files function_name max_callers source_files
        ([], []) ⟨fun fi hfi => absurd hfi (List.not_mem_nil fi), List.Pairwise.nil⟩
  unfold CallerTracker.find_callers
  exact ⟨pySlice_zero_length_le _ _ hmc,
    (hinv.2).sublist (pySlice_zero_sublist _ _)⟩

/-- Witness for **C4**: the two-file scenario (functions `A` and `B` each
calling `Foo`) satisfies the hypothesis `0 ≤ max_callers = 3` and the
conclusion. -/
theorem claim_C4_witness :
    (0 : Int) ≤ 3 ∧
    ((CallerTracker.find_callers caller_parse caller_files ["s1.cpp", "s2.cpp"]
        "Foo" "def.cpp" 1 3).length : Int) ≤ 3 ∧
    (CallerTracker.find_callers caller_parse caller_files ["s1.cpp", "s2.cpp"]
        "Foo" "def.cpp" 1 3).Pairwise distinct_file_function :=
  ⟨by decide,
    claim_C4_find_callers_capped_and_distinct caller_parse caller_files
      ["s1.cpp", "s2.cpp"] "Foo" "def.cpp" 1 3 (by decide)⟩

/-- The per-caller loop of `build_chain` only adds chains satisfying `R`,
provided every recursive call it performs does so. -/
theorem chain_loop_mem
    (recur : String → List String → List FunctionInfo →
      List (List FunctionInfo) → List (List FunctionInfo))
    (R : List FunctionInfo → Prop) :
    ∀ (callers : List FunctionInfo) (visited : List String)
      (chain : List FunctionInfo) (chains : List (List FunctionInfo)),
      (∀ caller ∈ callers, ¬ (caller.file_path ++ ":" ++ caller.name) ∈ visited →
        ∀ ch x, x ∈ recur caller.name (visited ++ [caller.file_path ++ ":" ++ caller.name])
          (chain ++ [caller]) ch → x ∈ ch ∨ R x) →
      ∀ x ∈ CallerTracker.chain_loop recur callers visited chain chains,
        x ∈ chains ∨ R x := by
  intro callers
  induction callers with
  | nil => intro visited chain chains _ x hx; exact Or.inl hx
  | cons caller rest ih =>
    intro visited chain chains hrec x hx
    rw [CallerTracker.chain_loop] at hx
    by_cases hkey : (caller.file_path ++ ":" ++ caller.name) ∈ visited
    · rw [if_pos hkey] at hx
      exact ih visited chain chains (fun c hc => hrec c (List.mem_cons_of_mem _ hc)) x hx
    · rw [if_neg hkey] at hx
      rcases ih visited chain _ (fun c hc => hrec c (List.mem_cons_of_mem _ hc)) x hx with
        hx' | hx'
      · exact hrec caller (List.mem_cons_self caller rest) hkey _ x hx'
      · exact Or.inr hx'

/-- The per-caller loop of `build_chain` preserves any property of the
accumulated chain list, provided every recursive call it performs does. -/
theorem chain_loop_pres
    (recur : String → List String → List FunctionInfo →
      List (List FunctionInfo) → List (List FunctionInfo))
    (P : List (List FunctionInfo) → Prop)
    (hrec : ∀ fn v c ch, P ch → P (recur fn v c ch)) :
    ∀ (callers : List FunctionInfo) (visited : List String)
      (chain : List FunctionInfo) (chains : List (List FunctionInfo)),
      P chains →
      P (CallerTracker.chain_loop recur callers visited chain chains) := by
  intro callers
  induction callers with
  | nil => intro _ _ chains h; exact h
  | cons caller rest ih =>
    intro visited chain chains h
    rw [CallerTracker.chain_loop]
    split
    · exact ih visited chain chains h
    · exact ih visited chain _ (hrec _ _ _ _ h)

/-- Lemma: `build_chain` never grows the chain list beyond 10 entries. -/
theorem build_chain_count_le (cf : String → List FunctionInfo) (max_depth : Int) :
    ∀ (fuel : Nat) (depth : Int) (func_name : String) (visited : List String)
      (chain : List FunctionInfo) (chains : List (List FunctionInfo)),
      chains.length ≤ 10 →
      (CallerTracker.build_chain cf max_depth fuel depth func_name visited chain
        chains).length ≤ 10 := by
  intro fuel
  induction fuel with
  | zero =>
    intro depth fn visited chain chains h
    rw [CallerTracker.build_chain]
    split
    · exact h
    · exact h
  | succ fuel' ih =>
    intro depth fn visited chain chains h
    rw [CallerTracker.build_chain]
    split
    · exact h
    · rename_i hguard
      simp only
      split
      · split
        · have : (chains.length : Int) < 10 := by
            rcases not_or.1 hguard with ⟨-, h2⟩
            exact lt_of_not_ge h2
          have hlen : chains.length < 10 := by exact_mod_cast this
          simp only [List.length_append, List.length_singleton]
          omega
        · exact h
      · exact chain_loop_pres _ (fun ch => ch.length ≤ 10)
          (fun fn' v c ch hch => ih (depth + 1) fn' v c ch hch) _ _ _ _ h

/-- Every chain `build_chain` adds is an extension of the chain under
construction: it is bounded in length by `chain.length + (max_depth - depth)`
and pairwise (file, name)-distinct, provided the chain under construction
has its keys in the visited set and is itself pairwise distinct. -/
theorem build_chain_mem (cf : String → List FunctionInfo) (max_depth : Int) :
    ∀ (fuel : Nat) (depth : Int) (func_name : String) (visited : List String)
      (chain : List FunctionInfo) (chains : List (List FunctionInfo)),
      (∀ fi ∈ chain, caller_key fi ∈ visited) →
      chain.Pairwise distinct_file_function →
      ∀ x ∈ CallerTracker.build_chain cf max_depth fuel depth func_name visited
        chain chains,
        x ∈ chains ∨
          ((x.length : Int) ≤ (chain.length : Int) + (max_depth - depth) ∧
            x.Pairwise distinct_file_function) := by
  intro fuel
  induction fuel with
  | zero =>
    intro depth fn visited chain chains _ _ x hx
    rw [CallerTracker.build_chain] at hx
    split at hx
    · exact Or.inl hx
    · exact Or.inl hx
  | succ fuel' ih =>
    intro depth fn visited chain chains hkeys hpw x hx
    rw [CallerTracker.build_chain] at hx
    split at hx
    · exact Or.inl hx
    · rename_i hguard
      have hdep : depth < max_depth := by
        rcases not_or.1 hguard with ⟨h1, -⟩
        exact lt_of_not_ge h1
      simp only at hx
      split at hx
      · split at hx
        · rcases List.mem_append.1 hx with hx' | hx'
          · exact Or.inl hx'
          · rcases List.mem_singleton.1 hx' with rfl
            refine Or.inr ⟨?_, hpw⟩
            have : (0 : Int) ≤ max_depth - depth := by omega
            omega
        · exact Or.inl hx
      · refine chain_loop_mem _
          (fun y => (y.length : Int) ≤ (chain.length : Int) + (max_depth - depth) ∧
            y.Pairwise distinct_file_function) _ _ _ _ ?_ x hx
        intro caller _ hnotin ch y hy
        have hkeys' : ∀ fi ∈ chain ++ [caller],
            caller_key fi ∈ visited ++ [caller.file_path ++ ":" ++ caller.name] := by
          intro fi hfi
          rcases List.mem_append.1 hfi with hfi | hfi
          · exact List.mem_append_left _ (hkeys fi hfi)
          · rcases List.mem_singleton.1 hfi with rfl
            exact List.mem_append_right _ (by simp [caller_key])
        have hpw' : (chain ++ [caller]).Pairwise distinct_file_function := by
          refine List.pairwise_append.2 ⟨hpw, List.pairwise_singleton _ _, ?_⟩
          intro a ha b hb
          have hb' := List.mem_singleton.1 hb
          intro hab
          apply hnotin
          have hk : caller_key a = caller.file_path ++ ":" ++ caller.name := by
            rw [caller_key, hab.1, hab.2, hb']
          rw [← hk]
          exact hkeys a ha
        rcases ih (depth + 1) caller.name _ _ ch hkeys' hpw' y hy with hy' | hy'
        · exact Or.inl hy'
        · refine Or.inr ⟨?_, hy'.2⟩
          have h1 := hy'.1
          have h2 : ((chain ++ [caller]).length : Int) = (chain.length : Int) + 1 := by
            simp
          omega

/-- Claim C5.  Every chain returned by `find_call_chain` has at most
`max_depth` elements, the returned list holds at most 10 chains, and within
a single chain no (file, name) pair occurs twice (the add-before-recurse /
remove-after visited discipline makes chains acyclic by construction). -/
theorem claim_C5_call_chains_bounded_and_acyclic
    (parse : String → Option Cursor) (files : String → Option (List String))
    (source_files : List String) (function_name file_path : String)
    (max_depth : Int) :
    (CallerTracker.find_call_chain parse files source_files function_name
      file_path max_depth).length ≤ 10 ∧
    ∀ chain ∈ CallerTracker.find_call_chain parse files source_files function_name
      file_path max_depth,
      (chain.length : Int) ≤ max_depth ∧
      chain.Pairwise distinct_file_function := by
  constructor
  · exact build_chain_count_le _ max_depth max_depth.toNat 0 function_name [] [] []
      (by simp)
  · intro chain hchain
    rcases build_chain_mem _ max_depth max_depth.toNat 0 function_name [] [] []
      (fun fi hfi => absurd hfi (List.not_mem_nil fi)) List.Pairwise.nil chain hchain
      with h | h
    · exact absurd h (List.not_mem_nil chain)
    · refine ⟨?_, h.2⟩
      have := h.1
      simpa using this

/-- Witness for **C5**: in the two-file scenario the chain `[A]` (the caller
`A` of `Foo`, which itself has no callers) is returned, and the theorem's
conclusions hold for it. -/
theorem claim_C5_witness :
    [funcA_info] ∈ CallerTracker.find_call_chain caller_parse caller_files
      ["s1.cpp", "s2.cpp"] "Foo" "def.cpp" 3 ∧
    (([funcA_info].length : Int) ≤ 3 ∧
      [funcA_info].Pairwise distinct_file_function) :=
  ⟨by decide,
    (claim_C5_call_chains_bounded_and_acyclic caller_parse caller_files
      ["s1.cpp", "s2.cpp"] "Foo" "def.cpp" 3).2 [funcA_info] (by decide)⟩

/-- Any candidate produced by `_extract_type_names` survives the exclusion
filter, i.e. is not in `STD_TYPES`. -/
theorem extract_type_names_not_std {code : String} {x : String}
    (hx : x ∈ SymbolResolver.extract_type_names code) :
    ¬ x ∈ SymbolResolver.STD_TYPES := by
  unfold SymbolResolver.extract_type_names at hx
  simp only [List.mem_filter] at hx
  exact of_decide_eq_true hx.2

/-- The name of a `TypeDefinition` extracted from a cursor is the cursor's
spelling. -/
theorem cursor_to_type_definition_name {files : String → Option (List String)}
    {c : Cursor} {td : TypeDefinition}
    (h : SymbolResolver.cursor_to_type_definition files c = some td) :
    td.name = c.spelling := by
  unfold SymbolResolver.cursor_to_type_definition at h
  cases hf : c.file with
  | none => rw [hf] at h; cases h
  | some fp =>
    rw [hf] at h
    dsimp only at h
    cases hl : files fp with
    | none => rw [hl] at h; cases h
    | some lines => rw [hl] at h; cases h; rfl

/-- A member of a cursor list that satisfies `cursor_any` makes
`cursor_list_any` true. -/
theorem cursor_list_any_of_mem {p : Cursor → Bool} {c : Cursor} {cs : List Cursor}
    (hc : c ∈ cs) (h : cursor_any p c = true) : cursor_list_any p cs = true := by
  induction cs with
  | nil => cases hc
  | cons d ds ih =>
    rw [cursor_list_any, Bool.or_eq_true]
    rcases List.mem_cons.1 hc with rfl | hc'
    · exact Or.inl h
    · exact Or.inr (ih hc')

/-- Whatever `ftd_record` adds to the state is an AST-confirmed candidate of
the very node it inspected. -/
theorem ftd_record_mem {files : String → Option (List String)}
    {type_candidates : List String} {node : Cursor}
    {st : List TypeDefinition × List String} {td : TypeDefinition}
    (h : td ∈ (SymbolResolver.ftd_record files type_candidates node st).1) :
    td ∈ st.1 ∨ (td.name ∈ type_candidates ∧ type_def_pred td.name node = true) := by
  unfold SymbolResolver.ftd_record at h
  split at h
  · rename_i hcand
    split at h
    · rename_i hdef
      cases hx : SymbolResolver.cursor_to_type_definition files node with
      | none => rw [hx] at h; exact Or.inl h
      | some td' =>
        rw [hx] at h
        simp only at h
        rcases List.mem_append.1 h with h' | h'
        · exact Or.inl h'
        · rcases List.mem_singleton.1 h' with rfl
          have hname := cursor_to_type_definition_name hx
          refine Or.inr ⟨hname ▸ hcand.1, ?_⟩
          unfold type_def_pred
          rw [hname]
          simp [hcand.2.2, hdef]
    · exact Or.inl h
  · exact Or.inl h

mutual

/-- The type-confirmation walk only adds AST-confirmed candidates (node
version). -/
theorem ftd_walk_mem (files : String → Option (List String))
    (type_candidates : List String) (max_types : Int) (node : Cursor)
    (st : List TypeDefinition × List String) (td : TypeDefinition)
    (h : td ∈ (SymbolResolver.ftd_walk files type_candidates max_types node st).1) :
    td ∈ st.1 ∨
      (td.name ∈ type_candidates ∧ cursor_any (type_def_pred td.name) node = true) := by
  cases node with
  | mk kind spelling dn file es ee isdef ll ts rt tks children =>
    rw [SymbolResolver.ftd_walk] at h
    split at h
    · exact Or.inl h
    · rcases ftd_walk_children_mem files type_candidates max_types children _ td h with
        h' | h'
      · rcases ftd_record_mem h' with h'' | h''
        · exact Or.inl h''
        · refine Or.inr ⟨h''.1, ?_⟩
          rw [cursor_any, Bool.or_eq_true]
          exact Or.inl h''.2
      · refine Or.inr ⟨h'.1, ?_⟩
        rw [cursor_any, Bool.or_eq_true]
        exact Or.inr h'.2

/-- The type-confirmation walk only adds AST-confirmed candidates (child-list
version). -/
theorem ftd_walk_children_mem (files : String → Option (List String))
    (type_candidates : List String) (max_types : Int) (cs : List Cursor)
    (st : List TypeDefinition × List String) (td : TypeDefinition)
    (h : td ∈ (SymbolResolver.ftd_walk_children files type_candidates max_types
      cs st).1) :
    td ∈ st.1 ∨
      (td.name ∈ type_candidates ∧ cursor_list_any (type_def_pred td.name) cs = true) := by
  cases cs with
  | nil => exact Or.inl h
  | cons c cs' =>
    rw [SymbolResolver.ftd_walk_children] at h
    rcases ftd_walk_children_mem files type_candidates max_types cs' _ td h with
      h' | h'
    · rcases ftd_walk_mem files type_candidates max_types c st td h' with h'' | h''
      · exact Or.inl h''
      · refine Or.inr ⟨h''.1, ?_⟩
        rw [cursor_list_any, Bool.or_eq_true]
        exact Or.inl h''.2
    · refine Or.inr ⟨h'.1, ?_⟩
      rw [cursor_list_any, Bool.or_eq_true]
      exact Or.inr h'.2

end

/-- Claim C8.  `find_types_in_function` never returns a candidate from the
built-in exclusion set `STD_TYPES` (such as `"uint32_t"`), even when it
matches the identifier pattern textually; and every returned definition is
confirmed by the AST: the parsed file contains a node of a type kind
(class/struct/enum/typedef/alias/template-class) that is a definition and is
spelled exactly like the returned name.  Unconfirmed candidates are silently
dropped (they can only be absent from the result). -/
theorem claim_C8_types_excluded_and_confirmed
    (parse : String → Option Cursor) (files : String → Option (List String))
    (function_code : String) (file_path : String) (max_types : Int)
    (td : TypeDefinition)
    (h : td ∈ SymbolResolver.find_types_in_function parse files function_code
      file_path max_types) :
    ¬ td.name ∈ SymbolResolver.STD_TYPES ∧
    ∃ root, parse file_path = some root ∧
      cursor_any (type_def_pred td.name) root = true := by
  unfold SymbolResolver.find_types_in_function at h
  dsimp only at h
  by_cases hempty : (SymbolResolver.extract_type_names function_code).isEmpty = true
  · rw [if_pos hempty] at h
    exact absurd h (List.not_mem_nil td)
  · rw [if_neg hempty] at h
    cases hp : parse file_path with
    | none =>
      rw [hp] at h
      exact absurd h (List.not_mem_nil td)
    | some root =>
      rw [hp] at h
      rcases ftd_walk_mem files _ max_types root ([], []) td h with h' | h'
      · exact absurd h' (List.not_mem_nil td)
      · exact ⟨extract_type_names_not_std h'.1, root, rfl, h'.2⟩

/-- Witness for **C8**: in the `t.cpp` scenario the snippet mentions
`MotorSpeedLimit` (confirmed by a struct definition) and `uint32_t`
(excluded); the resolver returns exactly the confirmed definition, and the
theorem's conclusions hold for it. -/
theorem claim_C8_witness :
    motor_td ∈ SymbolResolver.find_types_in_function type_parse type_files
      motor_code "t.cpp" 10 ∧
    (¬ motor_td.name ∈ SymbolResolver.STD_TYPES ∧
      ∃ root, type_parse "t.cpp" = some root ∧
        cursor_any (type_def_pred motor_td.name) root = true) :=
  ⟨by decide,
    claim_C8_types_excluded_and_confirmed type_parse type_files motor_code
      "t.cpp" 10 motor_td (by decide)⟩

/-- The per-text token estimate is never negative. -/
theorem estimate_tokens_str_nonneg (s : String) :
    0 ≤ TokenOptimizer.estimate_tokens_str s :=
  Int.tdiv_nonneg (Int.ofNat_nonneg _) (by decide)

/-- When the whole caller list cumulatively fits the budget, the greedy
caller loop keeps it unchanged. -/
theorem optimize_functions_go_id (budget : Int) :
    ∀ (l : List FunctionInfo) (used : Int),
      used + (l.map (fun f => TokenOptimizer.estimate_tokens_str f.code)).sum ≤ budget →
      TokenOptimizer.optimize_functions_go budget l used = l := by
  intro l
  induction l with
  | nil => intro used _; rfl
  | cons f fs ih =>
    intro used h
    rw [List.map_cons, List.sum_cons] at h
    have hrest : 0 ≤ (fs.map (fun f => TokenOptimizer.estimate_tokens_str f.code)).sum :=
      List.sum_nonneg (by
        intro x hx
        rcases List.mem_map.1 hx with ⟨g, -, rfl⟩
        exact estimate_tokens_str_nonneg _)
    rw [TokenOptimizer.optimize_functions_go]
    rw [if_pos (by omega)]
    rw [ih (used + TokenOptimizer.estimate_tokens_str f.code) (by omega)]

/-- The greedy item loop returns a sublist of its input. -/
theorem optimize_items_go_sublist {α : Type} (budget : Int) (key : α → Int) :
    ∀ (l : List α) (used : Int),
      (TokenOptimizer.optimize_items_go budget key l used).Sublist l := by
  intro l
  induction l with
  | nil => intro used; exact List.Sublist.refl _
  | cons i rest ih =>
    intro used
    rw [TokenOptimizer.optimize_items_go]
    split
    · exact (ih _).cons₂ i
    · exact (ih _).cons i

/-- Re-running the greedy item loop on its own output (from the same running
total) changes nothing: each kept item still fits, because its predecessors
are exactly the items that were kept before it. -/
theorem optimize_items_go_stable {α : Type} (budget : Int) (key : α → Int) :
    ∀ (l : List α) (used : Int),
      TokenOptimizer.optimize_items_go budget key
          (TokenOptimizer.optimize_items_go budget key l used) used =
        TokenOptimizer.optimize_items_go budget key l used := by
  intro l
  induction l with
  | nil => intro used; rfl
  | cons i rest ih =>
    intro used
    rw [TokenOptimizer.optimize_items_go]
    split
    · rename_i hfit
      rw [TokenOptimizer.optimize_items_go, if_pos hfit, ih]
    · exact ih used

/-- Lemma: `_optimize_items` is idempotent at a fixed budget: its output is sorted
(so the second stable sort is the identity) and greedily self-supporting (so
the second greedy pass keeps everything). -/
theorem optimize_items_idem {α : Type} [DecidableEq α] (items : List α)
    (budget : Int) (key : α → Int) :
    TokenOptimizer.optimize_items (TokenOptimizer.optimize_items items budget key)
        budget key =
      TokenOptimizer.optimize_items items budget key := by
  unfold TokenOptimizer.optimize_items
  haveI : IsTotal α (fun a b => key a ≤ key b) := ⟨fun a b => le_total _ _⟩
  haveI : IsTrans α (fun a b => key a ≤ key b) := ⟨fun _ _ _ h1 h2 => le_trans h1 h2⟩
  have hsorted : List.Sorted (fun a b => key a ≤ key b)
      (List.insertionSort (fun a b => key a ≤ key b) items) :=
    List.sorted_insertionSort _ items
  have hsub := optimize_items_go_sublist budget key
    (List.insertionSort (fun a b => key a ≤ key b) items) 0
  have hys : List.Sorted (fun a b => key a ≤ key b)
      (TokenOptimizer.optimize_items_go budget key
        (List.insertionSort (fun a b => key a ≤ key b) items) 0) :=
    hsorted.sublist hsub
  rw [hys.insertionSort_eq]
  exact optimize_items_go_stable budget key _ 0

/-- Claim C6, amended.  Optimization is idempotent *provided the first pass's
output still fits its own category budgets*: if the once-optimized context's
target code is within the 60 % target budget and its caller list cumulatively
fits the recomputed 50 % caller budget, then a second `optimize_context` with
the same `max_tokens` returns the context unchanged.  (The proviso is needed
because truncation markers are not counted against the character budget and
can push a truncated unit back over its budget — see the counterexample.)
The type and macro lists need no proviso: their greedy selection is
idempotent as such. -/
theorem claim_C6_optimize_idempotent_amended (max_tokens : Int)
    (c : AnalysisContext)
    (h1 : TokenOptimizer.estimate_tokens_str
        (TokenOptimizer.optimize_context max_tokens c).target_function.code ≤
      Int.tdiv ((max_tokens - TokenOptimizer.BASE_TOKENS) * 6) 10)
    (h2 : ((TokenOptimizer.optimize_context max_tokens c).caller_functions.map
        (fun f => TokenOptimizer.estimate_tokens_str f.code)).sum ≤
      Int.tdiv ((max_tokens - TokenOptimizer.BASE_TOKENS -
        TokenOptimizer.estimate_tokens_str
          (TokenOptimizer.optimize_context max_tokens c).target_function.code) * 5)
        10) :
    TokenOptimizer.optimize_context max_tokens
        (TokenOptimizer.optimize_context max_tokens c) =
      TokenOptimizer.optimize_context max_tokens c := by
  set d := TokenOptimizer.optimize_context max_tokens c with hd
  have htypes : d.related_types =
      (if c.related_types.isEmpty then c.related_types
       else TokenOptimizer.optimize_items c.related_types
         (Int.tdiv ((max_tokens - TokenOptimizer.BASE_TOKENS -
           TokenOptimizer.estimate_tokens_str d.target_function.code) * 3) 10)
         (fun t => (t.code.length : Int))) := by
    rw [hd]
    rfl
  have hmacros : d.related_macros =
      (if c.related_macros.isEmpty then c.related_macros
       else TokenOptimizer.optimize_items c.related_macros
         (Int.tdiv ((max_tokens - TokenOptimizer.BASE_TOKENS -
           TokenOptimizer.estimate_tokens_str d.target_function.code) * 2) 10)
         (fun m => (m.definition.length : Int))) := by
    rw [hd]
    rfl
  have hcall : (if d.caller_functions.isEmpty then d.caller_functions
      else TokenOptimizer.optimize_functions d.caller_functions
        (Int.tdiv ((max_tokens - TokenOptimizer.BASE_TOKENS -
          TokenOptimizer.estimate_tokens_str d.target_function.code) * 5) 10)) =
      d.caller_functions := by
    split
    · rfl
    · exact optimize_functions_go_id _ _ 0 (by simpa using h2)
  have htypes2 : (if d.related_types.isEmpty then d.related_types
      else TokenOptimizer.optimize_items d.related_types
        (Int.tdiv ((max_tokens - TokenOptimizer.BASE_TOKENS -
          TokenOptimizer.estimate_tokens_str d.target_function.code) * 3) 10)
        (fun t => (t.code.length : Int))) = d.related_types := by
    split
    · rfl
    · rw [htypes]
      by_cases hty : c.related_types.isEmpty
      · rw [if_pos hty, List.isEmpty_iff.1 hty]
        rfl
      · rw [if_neg hty]
        exact optimize_items_idem _ _ _
  have hmacros2 : (if d.related_macros.isEmpty then d.related_macros
      else TokenOptimizer.optimize_items d.related_macros
        (Int.tdiv ((max_tokens - TokenOptimizer.BASE_TOKENS -
          TokenOptimizer.estimate_tokens_str d.target_function.code) * 2) 10)
        (fun m => (m.definition.length : Int))) = d.related_macros := by
    split
    · rfl
    · rw [hmacros]
      by_cases hmc : c.related_macros.isEmpty
      · rw [if_pos hmc, List.isEmpty_iff.1 hmc]
        rfl
      · rw [if_neg hmc]
        exact optimize_items_idem _ _ _
  show TokenOptimizer.optimize_context max_tokens d = d
  unfold TokenOptimizer.optimize_context
  dsimp only
  rw [if_neg (not_lt.2 h1)]
  rw [hcall, htypes2, hmacros2]

/-- Witness for the amended **C6** statement: for the small context
`c6w_context` and budget 2030 both provisos hold, and re-optimization is the
identity. -/
theorem claim_C6_amended_witness :
    (TokenOptimizer.estimate_tokens_str
        (TokenOptimizer.optimize_context 2030 c6w_context).target_function.code ≤
      Int.tdiv ((2030 - TokenOptimizer.BASE_TOKENS) * 6) 10) ∧
    (((TokenOptimizer.optimize_context 2030 c6w_context).caller_functions.map
        (fun f => TokenOptimizer.estimate_tokens_str f.code)).sum ≤
      Int.tdiv ((2030 - TokenOptimizer.BASE_TOKENS -
        TokenOptimizer.estimate_tokens_str
          (TokenOptimizer.optimize_context 2030 c6w_context).target_function.code) * 5)
        10) ∧
    TokenOptimizer.optimize_context 2030
        (TokenOptimizer.optimize_context 2030 c6w_context) =
      TokenOptimizer.optimize_context 2030 c6w_context :=
  ⟨by decide, by decide,
    claim_C6_optimize_idempotent_amended 2030 c6w_context (by decide) (by decide)⟩

/-- Claim C7, counterexample.  The claim — every produced `FunctionInfo` has
`start_line ≤ end_line` — fails as stated: the line-window fallback of
`extract_function_with_context`, asked about line 1 of an *empty* file (no
enclosing function exists), returns the pseudo-unit `"<context>"` with
`start_line = 1` and `end_line = 0`, an inverted span.  (Any finding line
beyond the end of the file produces the same kind of inversion.) -/
theorem claim_C7_counterexample :
    ∃ fi, (FunctionExtractor.extract_function_with_context empty_parse empty_files 0
        "empty.cpp" 1 20).1 = some fi ∧ fi.end_line < fi.start_line :=
  ⟨{ name := "<context>", file_path := "empty.cpp", start_line := 1, end_line := 0,
     code := "" },
   by decide, by decide⟩

/-- Unpacking `cursor_wf` at a node. -/
theorem cursor_wf_unfold {c : Cursor} (h : cursor_wf c = true) :
    c.ext_start ≤ c.ext_end ∧ cursor_list_wf c.children = true := by
  cases c with
  | mk kind sp dn file es ee isdef ll ts rt tks children =>
    rw [cursor_wf, Bool.and_eq_true] at h
    exact ⟨of_decide_eq_true h.1, h.2⟩

/-- Lemma: `cursor_list_wf` gives `cursor_wf` for each member. -/
theorem cursor_list_wf_mem {cs : List Cursor} {c : Cursor}
    (h : cursor_list_wf cs = true) (hc : c ∈ cs) : cursor_wf c = true := by
  induction cs with
  | nil => cases hc
  | cons d ds ih =>
    rw [cursor_list_wf, Bool.and_eq_true] at h
    rcases List.mem_cons.1 hc with rfl | hc'
    · exact h.1
    · exact ih h.2 hc'

mutual

/-- Any cursor returned by the locator's traversal of a well-formed tree has
a well-formed extent (node version). -/
theorem fef_traverse_wf (rec : Cursor → Option (Option Cursor))
    (file_path : String) (target_line : Int)
    (hrec : ∀ n c, cursor_wf n = true → rec n = some (some c) →
      c.ext_start ≤ c.ext_end)
    (node : Cursor) (c : Cursor) (hwf : cursor_wf node = true)
    (h : FunctionExtractor.fef_traverse rec file_path target_line node =
      some (some c)) :
    c.ext_start ≤ c.ext_end := by
  cases node with
  | mk kind sp dn file es ee isdef ll ts rt tks children =>
    have hext := cursor_wf_unfold hwf
    rw [FunctionExtractor.fef_traverse] at h
    split at h
    · cases h
    · split at h
      · cases hr : rec (.mk kind sp dn file es ee isdef ll ts rt tks children) with
        | none => rw [hr] at h; cases h
        | some inner =>
          rw [hr] at h
          cases inner with
          | none =>
            cases h
            exact hext.1
          | some i =>
            cases h
            exact hrec _ _ hwf hr
      · split at h
        · cases h
          exact hext.1
        · exact fef_traverse_children_wf rec file_path target_line hrec children c
            hext.2 h

/-- Any cursor returned by the locator's traversal of a well-formed tree has
a well-formed extent (child-list version). -/
theorem fef_traverse_children_wf (rec : Cursor → Option (Option Cursor))
    (file_path : String) (target_line : Int)
    (hrec : ∀ n c, cursor_wf n = true → rec n = some (some c) →
      c.ext_start ≤ c.ext_end)
    (cs : List Cursor) (c : Cursor) (hwf : cursor_list_wf cs = true)
    (h : FunctionExtractor.fef_traverse_children rec file_path target_line cs =
      some (some c)) :
    c.ext_start ≤ c.ext_end := by
  cases cs with
  | nil => cases h
  | cons d ds =>
    rw [cursor_list_wf, Bool.and_eq_true] at hwf
    rw [FunctionExtractor.fef_traverse_children] at h
    cases hx : FunctionExtractor.fef_traverse rec file_path target_line d with
    | none => rw [hx] at h; cases h
    | some r =>
      rw [hx] at h
      cases r with
      | none =>
        exact fef_traverse_children_wf rec file_path target_line hrec ds c hwf.2 h
      | some r' =>
        cases h
        exact fef_traverse_wf rec file_path target_line hrec d c hwf.1 hx

end

/-- Any cursor returned by `_find_enclosing_function` on a well-formed tree
has a well-formed extent. -/
theorem find_enclosing_function_wf :
    ∀ (fuel : Nat) (node : Cursor) (file_path : String) (target_line : Int)
      (c : Cursor), cursor_wf node = true →
      FunctionExtractor.find_enclosing_function fuel node file_path target_line =
        some (some c) →
      c.ext_start ≤ c.ext_end := by
  intro fuel
  induction fuel with
  | zero => intro node fp tl c _ h; cases h
  | succ n ih =>
    intro node fp tl c hwf h
    exact fef_traverse_wf _ fp tl (fun n' c' hw' h' => ih n' fp tl c' hw' h')
      node c hwf h

/-- Lemma: `ct_record_call` keeps every recorded caller's span well-formed, given a
well-formed enclosing-function option. -/
theorem ct_record_call_wf {files : String → Option (List String)}
    {target_name file_path : String} {kind : CKind} {spelling : String}
    {enclosing_func : Option Cursor} {st : List FunctionInfo × List String}
    (henc : ∀ e, enclosing_func = some e → e.ext_start ≤ e.ext_end)
    (hst : ∀ fi ∈ st.1, fi.start_line ≤ fi.end_line) :
    ∀ fi ∈ (CallerTracker.ct_record_call files target_name file_path kind spelling
      enclosing_func st).1, fi.start_line ≤ fi.end_line := by
  unfold CallerTracker.ct_record_call
  split
  · cases enclosing_func with
    | none => exact hst
    | some ef =>
      simp only
      split
      · exact hst
      · cases hx : CallerTracker.extract_function_info files ef file_path with
        | none => exact hst
        | some func_info =>
          intro fi hfi
          rcases List.mem_append.1 hfi with hfi | hfi
          · exact hst fi hfi
          · rcases List.mem_singleton.1 hfi with rfl
            obtain ⟨-, -, hs, he⟩ := extract_function_info_fields hx
            rw [hs, he]
            exact henc ef rfl
  · exact hst

mutual

/-- The caller-search traversal keeps every recorded caller's span
well-formed (node version). -/
theorem ct_traverse_wf (files : String → Option (List String))
    (target_name file_path : String) (max_callers : Int) (node : Cursor)
    (enclosing_func : Option Cursor) (st : List FunctionInfo × List String)
    (hwf : cursor_wf node = true)
    (henc : ∀ e, enclosing_func = some e → e.ext_start ≤ e.ext_end)
    (hst : ∀ fi ∈ st.1, fi.start_line ≤ fi.end_line) :
    ∀ fi ∈ (CallerTracker.ct_traverse files target_name file_path max_callers
      node enclosing_func st).1, fi.start_line ≤ fi.end_line := by
  cases node with
  | mk kind sp dn file es ee isdef ll ts rt tks children =>
    have hext := cursor_wf_unfold hwf
    rw [CallerTracker.ct_traverse]
    split
    · exact hst
    · split
      · exact hst
      · refine ct_traverse_children_wf files target_name file_path max_callers
          children _ _ hext.2 ?_ (ct_record_call_wf ?_ hst)
        · split
          · intro e he
            cases he
            exact hext.1
          · exact henc
        · split
          · intro e he
            cases he
            exact hext.1
          · exact henc

/-- The caller-search traversal keeps every recorded caller's span
well-formed (child-list version). -/
theorem ct_traverse_children_wf (files : String → Option (List String))
    (target_name file_path : String) (max_callers : Int) (cs : List Cursor)
    (enclosing_func : Option Cursor) (st : List FunctionInfo × List String)
    (hwf : cursor_list_wf cs = true)
    (henc : ∀ e, enclosing_func = some e → e.ext_start ≤ e.ext_end)
    (hst : ∀ fi ∈ st.1, fi.start_line ≤ fi.end_line) :
    ∀ fi ∈ (CallerTracker.ct_traverse_children files target_name file_path
      max_callers cs enclosing_func st).1, fi.start_line ≤ fi.end_line := by
  cases cs with
  | nil => exact hst
  | cons c cs' =>
    rw [cursor_list_wf, Bool.and_eq_true] at hwf
    rw [CallerTracker.ct_traverse_children]
    exact ct_traverse_children_wf files target_name file_path max_callers cs' _ _
      hwf.2 henc
      (ct_traverse_wf files target_name file_path max_callers c _ st hwf.1 henc hst)

end

/-- The per-file caller loop keeps every recorded caller's span well-formed,
given that parsed roots are well-formed. -/
theorem fc_file_loop_wf (parse : String → Option Cursor)
    (files : String → Option (List String)) (function_name : String)
    (max_callers : Int)
    (hparse : ∀ p r, parse p = some r → cursor_wf r = true) :
    ∀ (source_files : List String) (st : List FunctionInfo × List String),
      (∀ fi ∈ st.1, fi.start_line ≤ fi.end_line) →
      ∀ fi ∈ (CallerTracker.fc_file_loop parse files function_name max_callers
        source_files st).1, fi.start_line ≤ fi.end_line := by
  intro source_files
  induction source_files with
  | nil => intro st hst; exact hst
  | cons src rest ih =>
    intro st hst
    rw [CallerTracker.fc_file_loop]
    split
    · exact hst
    · cases hp : parse src with
      | none => exact ih st hst
      | some tu_root =>
        exact ih _ (ct_traverse_wf files function_name src max_callers tu_root
          none st (hparse src tu_root hp) (fun e he => by cases he) hst)

/-- The two span fields of the locator's `FunctionInfo` are the cursor's
extent lines. -/
theorem cursor_to_function_info_span (files : String → Option (List String))
    (c : Cursor) (file_path : String) :
    (FunctionExtractor.cursor_to_function_info files c file_path).start_line =
      c.ext_start ∧
    (FunctionExtractor.cursor_to_function_info files c file_path).end_line =
      c.ext_end := ⟨rfl, rfl⟩

/-- Claim C7, amended.  Every `FunctionInfo` the subsystem produces satisfies
`start_line ≤ end_line`, *provided* (a) the AST provider only returns trees
whose extents are themselves well-formed, and (b) the line handed to the
line-window fallback of `extract_function_with_context` lies inside the file
(`1 ≤ line ≤ number of lines`, which also requires the file to be
non-empty); without (b) the fallback emits an inverted span (see the
counterexample).  Both truncation operations of the budget allocator
preserve the invariant unconditionally. -/
theorem claim_C7_spans_amended
    (parse : String → Option Cursor) (files : String → Option (List String))
    (fuel : Nat) (file_path : String) (line context_lines : Int)
    (source_files : List String) (function_name target_file : String)
    (max_depth max_callers : Int) (func : FunctionInfo) (focus_line mt mt' : Int)
    (hparse : ∀ p r, parse p = some r → cursor_wf r = true) :
    (∀ fi, FunctionExtractor.extract_function_at_line parse files fuel file_path
        line = some fi → fi.start_line ≤ fi.end_line) ∧
    (∀ fi s lines, files file_path = some lines → 0 ≤ context_lines →
      1 ≤ line → line ≤ (lines.length : Int) →
      FunctionExtractor.extract_function_with_context parse files fuel file_path
        line context_lines = (some fi, s) →
      fi.start_line ≤ fi.end_line) ∧
    (∀ fi ∈ CallerTracker.find_callers parse files source_files function_name
      target_file max_depth max_callers, fi.start_line ≤ fi.end_line) ∧
    (TokenOptimizer.truncate_function func focus_line mt).start_line ≤
      (TokenOptimizer.truncate_function func focus_line mt).end_line ∧
    (∀ t, TokenOptimizer.truncate_caller func mt' = some t →
      t.start_line ≤ t.end_line) := by
  have hloc : ∀ fi, FunctionExtractor.extract_function_at_line parse files fuel
      file_path line = some fi → fi.start_line ≤ fi.end_line := by
    intro fi h
    unfold FunctionExtractor.extract_function_at_line at h
    cases hp : parse file_path with
    | none => rw [hp] at h; cases h
    | some root =>
      rw [hp] at h
      dsimp only at h
      cases hfind : FunctionExtractor.find_enclosing_function fuel root file_path
        line with
      | none => rw [hfind] at h; cases h
      | some r =>
        rw [hfind] at h
        cases r with
        | none => cases h
        | some c =>
          cases h
          rw [(cursor_to_function_info_span files c file_path).1,
            (cursor_to_function_info_span files c file_path).2]
          exact find_enclosing_function_wf fuel root file_path line c
            (hparse _ _ hp) hfind
  refine ⟨hloc, ?_, ?_, ?_, ?_⟩
  · intro fi s lines hlines hcl hlo hhi h
    unfold FunctionExtractor.extract_function_with_context at h
    cases hx : FunctionExtractor.extract_function_at_line parse files fuel
      file_path line with
    | some fi0 =>
      rw [hx] at h
      cases h
      exact hloc _ hx
    | none =>
      rw [hx] at h
      dsimp only at h
      rw [hlines] at h
      dsimp only at h
      cases h
      dsimp only
      omega
  · intro fi hfi
    unfold CallerTracker.find_callers at hfi
    have hmem := (pySlice_zero_sublist _ max_callers).mem hfi
    revert hmem
    unfold CallerTracker.find_callers_recursive
    split
    · intro hmem; cases hmem
    · intro hmem
      exact fc_file_loop_wf parse files function_name max_callers hparse
        source_files ([], []) (fun fi' hfi' => absurd hfi' (List.not_mem_nil fi'))
        fi hmem
  · unfold TokenOptimizer.truncate_function
    dsimp only
    omega
  · intro t h
    unfold TokenOptimizer.truncate_caller at h
    split at h
    · cases h
    · cases h
      dsimp only
      omega

/-- Witness for the amended **C7** statement: over the two-file caller
scenario the provider hypothesis holds, the fallback at line 2 of the
3-line `s1.cpp` yields a well-formed span, the extracted caller `A` has a
well-formed span, and a concrete target truncation does too. -/
theorem claim_C7_witness :
    (∀ p r, caller_parse p = some r → cursor_wf r = true) ∧
    c7_pseudo.start_line ≤ c7_pseudo.end_line ∧
    (funcA_info ∈ CallerTracker.find_callers caller_parse caller_files
        ["s1.cpp", "s2.cpp"] "Foo" "def.cpp" 1 3 ∧
      funcA_info.start_line ≤ funcA_info.end_line) ∧
    (TokenOptimizer.truncate_function c7_func 1 1).start_line ≤
      (TokenOptimizer.truncate_function c7_func 1 1).end_line := by
  have hparse : ∀ p r, caller_parse p = some r → cursor_wf r = true := by
    intro p r h
    unfold caller_parse at h
    split at h
    · cases h; decide
    · split at h
      · cases h; decide
      · cases h
  have H := claim_C7_spans_amended caller_parse caller_files 1 "s1.cpp" 2 20
    ["s1.cpp", "s2.cpp"] "Foo" "def.cpp" 1 3 c7_func 1 1 100 hparse
  refine ⟨hparse, ?_, ⟨by decide, ?_⟩, H.2.2.2.1⟩
  · exact H.2.1 c7_pseudo c7_pseudo.code
      ["void A() \x7b\n", "  Foo();\n", "\x7d\n"]
      (by decide) (by decide) (by decide) (by decide) (by decide)
  · exact H.2.2.1 funcA_info (by decide)

end StaticAnalysis
